import Mathlib

/-!
Shallow embedding of the neural-network operator kernels of
`frameworks/ml/nn/common/operations/internal/optimized/optimized_ops.h`
(tensor shape/stride model, broadcast resolver, quantized fixed-point
arithmetic, im2col + convolution, pooling, elementwise Add, FakeQuant,
LSTM cell), together with theorems settling the specification claims.

Conventions of the embedding:
* C `int`/`int32` scalars become `Int`; machine wrap-around is made explicit
  (`% 65536`, `% 256`, saturation) exactly where the source relies on a
  fixed-width type.
* float arithmetic is modelled over `ℚ` (the claims proved about float
  kernels are exact identities that hold for any field-like carrier and do
  not depend on rounding of float operations).
* buffers are total functions `Int → α` from flat element offsets to
  values; kernels only ever read offsets that the corresponding C code
  dereferences.
* imperative output loops that write each output element exactly once are
  embedded as the function mapping an output position to the value the
  loop stores there; `+=` accumulation loops become `Finset` sums over the
  iteration ranges.
-/

namespace OptimizedOps

/-- Rank-4 shape descriptor: `Dims<4>` from types.h, with `sizes[i]` the
extent and `strides[i]` the element stride of dimension `i`. -/
structure Dims4 where
  sizes : Fin 4 → Int
  strides : Fin 4 → Int

/-- Modelled from the spec (types.h is not part of the provided sources):
`Offset(shape, c, x, y, b)` computes a linear buffer index as the dot
product of the (channel, x, y, batch) indices with their strides. -/
def Offset (d : Dims4) (c x y b : Int) : Int :=
  c * d.strides 0 + x * d.strides 1 + y * d.strides 2 + b * d.strides 3

/-- Modelled from the spec (types.h is not part of the provided sources):
the "packed" predicate — `strides[0] == 1` and
`strides[d] == strides[d-1] * extents[d-1]`. -/
def IsPackedWithoutStrides (d : Dims4) : Prop :=
  d.strides 0 = 1 ∧ d.strides 1 = d.strides 0 * d.sizes 0 ∧
  d.strides 2 = d.strides 1 * d.sizes 1 ∧ d.strides 3 = d.strides 2 * d.sizes 2

instance (d : Dims4) : Decidable (IsPackedWithoutStrides d) := by
  unfold IsPackedWithoutStrides; infer_instance

/-- Modelled from the spec (types.h is not part of the provided sources):
total element count of a shape, the product of its extents. -/
def RequiredBufferSize (d : Dims4) : Int :=
  d.sizes 0 * d.sizes 1 * d.sizes 2 * d.sizes 3

/-- NdArrayDesc<4>: extents and strides of a rank-4 array, as used by the
element-wise broadcasting kernels. -/
structure NdArrayDesc4 where
  extents : Fin 4 → Int
  strides : Fin 4 → Int

/-- SubscriptToIndex: `i0*strides[0] + i1*strides[1] + i2*strides[2] +
i3*strides[3]` (optimized_ops.h lines 154-162). -/
def SubscriptToIndex (desc : NdArrayDesc4) (i0 i1 i2 i3 : Int) : Int :=
  i0 * desc.strides 0 + i1 * desc.strides 1 + i2 * desc.strides 2 +
    i3 * desc.strides 3

/-- NdArrayDescsForElementwiseBroadcast (optimized_ops.h lines 186-219).
The descriptors start as copies of the input dims; then for each dimension
with unequal extents, the operand whose extent the code treats as 1 gets
the other operand's extent and stride 0.  (In the `else` branch the code
sets desc1 regardless, after a `DCHECK_EQ(extent1, 1)`; the checked
variant below models that DCHECK.) -/
def NdArrayDescsForElementwiseBroadcast (d0 d1 : Dims4) :
    NdArrayDesc4 × NdArrayDesc4 :=
  (⟨fun i => if d0.sizes i ≠ d1.sizes i ∧ d0.sizes i = 1
             then d1.sizes i else d0.sizes i,
    fun i => if d0.sizes i ≠ d1.sizes i ∧ d0.sizes i = 1
             then 0 else d0.strides i⟩,
   ⟨fun i => if d0.sizes i ≠ d1.sizes i ∧ ¬ d0.sizes i = 1
             then d0.sizes i else d1.sizes i,
    fun i => if d0.sizes i ≠ d1.sizes i ∧ ¬ d0.sizes i = 1
             then 0 else d1.strides i⟩)

/-- NdArrayDescsForElementwiseBroadcast with the `DCHECK_EQ(extent1, 1)`
of its `else` branch modelled: `none` when some dimension has unequal
extents neither of which is 1 (fatal precondition violation). -/
def NdArrayDescsForElementwiseBroadcastChecked (d0 d1 : Dims4) :
    Option (NdArrayDesc4 × NdArrayDesc4) :=
  if ∀ i : Fin 4, d0.sizes i = d1.sizes i ∨ d0.sizes i = 1 ∨ d1.sizes i = 1
  then some (NdArrayDescsForElementwiseBroadcast d0 d1) else none

/-! Fixed-point arithmetic primitives.  These live in the external
gemmlowp fixedpoint library and in `internal/common.h`, neither of which
is part of the provided sources; the spec describes their numeric
contract (multiply-high by a Q31 multiplier, rounding right-shift with
round-to-nearest), and the definitions below follow that contract with
the rounding conventions of the library. -/

/-- Modelled from the spec (gemmlowp fixedpoint is an external black box):
rounding arithmetic right shift of `x` by `exponent` bits; round to
nearest, with the library's tie convention (ties round away from zero).
`x.fdiv 2^e` is the arithmetic shift; `x.emod 2^e` the kept low bits. -/
def RoundingDivideByPOT (x : Int) (exponent : Int) : Int :=
  let d : Int := 2 ^ exponent.toNat
  let mask : Int := d - 1
  let remainder : Int := x % d
  let threshold : Int := mask / 2 + (if x < 0 then 1 else 0)
  x.fdiv d + (if remainder > threshold then 1 else 0)

/-- Modelled from the spec (gemmlowp fixedpoint is an external black box):
high 32 bits of the doubled 64-bit product of two int32 (Q31 times Q31
multiply-high), rounding to nearest, saturating only on
`INT32_MIN * INT32_MIN`. -/
def SaturatingRoundingDoublingHighMul (a b : Int) : Int :=
  if a = -(2 ^ 31) ∧ b = -(2 ^ 31) then 2 ^ 31 - 1
  else
    let ab : Int := a * b
    let nudge : Int := if 0 ≤ ab then 2 ^ 30 else 1 - 2 ^ 30
    (ab + nudge).tdiv (2 ^ 31)

/-- Modelled from the spec (gemmlowp fixedpoint is an external black box):
multiply by `2^exponent` with int32 saturation for nonnegative exponents,
rounding divide for negative exponents. -/
def SaturatingRoundingMultiplyByPOT (exponent : Int) (x : Int) : Int :=
  if 0 ≤ exponent then
    let threshold : Int := 2 ^ (31 - exponent.toNat) - 1
    if x > threshold then 2 ^ 31 - 1
    else if x < -threshold then -(2 ^ 31)
    else x * 2 ^ exponent.toNat
  else RoundingDivideByPOT x (-exponent)

/-- Modelled from the spec (internal/common.h is not part of the provided
sources): `RescaleSmallerThanOne` — fixed-point multiply-high by a Q31
multiplier followed by a rounding right-shift. -/
def MultiplyByQuantizedMultiplierSmallerThanOne
    (x quantized_multiplier right_shift : Int) : Int :=
  RoundingDivideByPOT (SaturatingRoundingDoublingHighMul x quantized_multiplier)
    right_shift

/-- Fused activation tags (`FusedActivationFunctionType` from types.h). -/
inductive FusedActivationFunctionType where
  | kNone | kRelu | kRelu1 | kRelu6
deriving DecidableEq

/-- Modelled from the spec (internal/common.h is not part of the provided
sources): `ActivationFunction<Ac>` — the fused clamp selected by the tag:
None is the identity, Relu clamps below at 0, Relu6 to [0,6], Relu1 to
[-1,1]. -/
def ActivationFunction (ac : FusedActivationFunctionType) (x : ℚ) : ℚ :=
  match ac with
  | .kNone => x
  | .kRelu => max 0 x
  | .kRelu6 => min 6 (max 0 x)
  | .kRelu1 => min 1 (max (-1) x)

/-- Modelled from the spec (gemmlowp output stages are an external black
box): `OutputStageQuantizeDownInt32ToUint8ScaleByFixedPoint` — fixed-point
multiply-high by the output multiplier, rounding right-shift, then add the
output offset. -/
def OutputStageQuantizeDownScaleByFixedPoint
    (multiplier shift offset_after_shift acc : Int) : Int :=
  RoundingDivideByPOT (SaturatingRoundingDoublingHighMul acc multiplier) shift +
    offset_after_shift

/-- Modelled from the spec (gemmlowp output stages are an external black
box): `OutputStageSaturatingCastToUint8` clamps to the uint8 range. -/
def OutputStageSaturatingCastToUint8 (x : Int) : Int :=
  min 255 (max 0 x)

/-- The output pipeline built by the generic `GemmlowpOutputPipeline<Ac>`
(lines 529-557): bias addition, quantize-down, clamp to
`[output_activation_min, output_activation_max]`, saturating cast. -/
def GemmlowpOutputPipelineClampingApply (bias : Int → Int)
    (output_offset output_multiplier output_shift : Int)
    (output_activation_min output_activation_max : Int)
    (row acc : Int) : Int :=
  OutputStageSaturatingCastToUint8
    (min output_activation_max (max output_activation_min
      (OutputStageQuantizeDownScaleByFixedPoint output_multiplier output_shift
        output_offset (acc + bias row))))

/-- The output pipeline built by the
`GemmlowpOutputPipeline<FusedActivationFunctionType::kNone>`
specialization (lines 559-586): bias addition, quantize-down, saturating
cast — no clamp stage. -/
def GemmlowpOutputPipelineNoneApply (bias : Int → Int)
    (output_offset output_multiplier output_shift : Int)
    (row acc : Int) : Int :=
  OutputStageSaturatingCastToUint8
    (OutputStageQuantizeDownScaleByFixedPoint output_multiplier output_shift
      output_offset (acc + bias row))

/-- The `DCHECK_EQ(output_activation_min, 0)` and
`DCHECK_EQ(output_activation_max, 255)` preconditions of
`GemmlowpOutputPipeline<kNone>::Make` (lines 572-573): `none` when the
clamp bounds are not exactly the full uint8 range. -/
def GemmlowpOutputPipelineNoneMakeChecked (bias : Int → Int)
    (output_offset output_multiplier output_shift : Int)
    (output_activation_min output_activation_max : Int) :
    Option (Int → Int → Int) :=
  if output_activation_min = 0 ∧ output_activation_max = 255 then
    some (GemmlowpOutputPipelineNoneApply bias output_offset output_multiplier
      output_shift)
  else none

/-- Add (uint8), per-element scalar loop of optimized_ops.h lines
1421-1436: the output byte at flat index `i`.  The kernel writes this for
every `i` in `[0, size)` where `size = sizes[3]*strides[3]` of the
(packed, shape-matched) operands. -/
def AddUint8 (left_shift : Int)
    (input1_data : Int → Int) (input1_offset input1_multiplier input1_shift : Int)
    (input2_data : Int → Int) (input2_offset input2_multiplier input2_shift : Int)
    (output_offset output_multiplier output_shift : Int) : Int → Int :=
  fun i =>
    let input1_val := input1_offset + input1_data i
    let input2_val := input2_offset + input2_data i
    let shifted_input1_val := input1_val * 2 ^ left_shift.toNat
    let shifted_input2_val := input2_val * 2 ^ left_shift.toNat
    let scaled_input1_val := MultiplyByQuantizedMultiplierSmallerThanOne
      shifted_input1_val input1_multiplier input1_shift
    let scaled_input2_val := MultiplyByQuantizedMultiplierSmallerThanOne
      shifted_input2_val input2_multiplier input2_shift
    let raw_sum := scaled_input1_val + scaled_input2_val
    let raw_output := MultiplyByQuantizedMultiplierSmallerThanOne
      raw_sum output_multiplier output_shift + output_offset
    min 255 (max 0 raw_output)

/-- BroadcastAdd (uint8), optimized_ops.h lines 1481-1533: the output byte
at coordinates (c, x, y, b), reading each operand through its broadcast
descriptor. -/
def BroadcastAddUint8 (left_shift : Int)
    (input1_data : Int → Int) (input1_dims : Dims4)
    (input1_offset input1_multiplier input1_shift : Int)
    (input2_data : Int → Int) (input2_dims : Dims4)
    (input2_offset input2_multiplier input2_shift : Int)
    (output_offset output_multiplier output_shift : Int) :
    Int → Int → Int → Int → Int :=
  fun c x y b =>
    let desc1 := (NdArrayDescsForElementwiseBroadcast input1_dims input2_dims).1
    let desc2 := (NdArrayDescsForElementwiseBroadcast input1_dims input2_dims).2
    let input1_val := input1_offset + input1_data (SubscriptToIndex desc1 c x y b)
    let input2_val := input2_offset + input2_data (SubscriptToIndex desc2 c x y b)
    let shifted_input1_val := input1_val * 2 ^ left_shift.toNat
    let shifted_input2_val := input2_val * 2 ^ left_shift.toNat
    let scaled_input1_val := MultiplyByQuantizedMultiplierSmallerThanOne
      shifted_input1_val input1_multiplier input1_shift
    let scaled_input2_val := MultiplyByQuantizedMultiplierSmallerThanOne
      shifted_input2_val input2_multiplier input2_shift
    let raw_sum := scaled_input1_val + scaled_input2_val
    let raw_output := MultiplyByQuantizedMultiplierSmallerThanOne
      raw_sum output_multiplier output_shift + output_offset
    min 255 (max 0 raw_output)

/-- The per-element quantized Add formula exactly as the claim states it:
add each operand's offset to its 8-bit value, multiply each by
`2^left_shift`, rescale each by that operand's own fixed-point multiplier
and rounding right-shift, sum the two rescaled values, rescale the sum by
the output multiplier and shift, add the output offset, clamp to
[0, 255]. -/
def specQuantizedAddElement (left_shift : Int)
    (input1_offset input1_multiplier input1_shift : Int)
    (input2_offset input2_multiplier input2_shift : Int)
    (output_offset output_multiplier output_shift : Int) (v1 v2 : Int) : Int :=
  let a1 := (v1 + input1_offset) * 2 ^ left_shift.toNat
  let a2 := (v2 + input2_offset) * 2 ^ left_shift.toNat
  let r1 := MultiplyByQuantizedMultiplierSmallerThanOne a1 input1_multiplier
    input1_shift
  let r2 := MultiplyByQuantizedMultiplierSmallerThanOne a2 input2_multiplier
    input2_shift
  let s := MultiplyByQuantizedMultiplierSmallerThanOne (r1 + r2)
    output_multiplier output_shift
  min 255 (max 0 (s + output_offset))

/-- Modelled from the C library contract: `std::round` — round to
nearest, halfway cases away from zero. -/
def roundHalfAwayFromZero (q : ℚ) : Int :=
  if 0 ≤ q then ⌊q + 1 / 2⌋ else ⌈q - 1 / 2⌉

/-- Quantization-parameter derivation of FakeQuant (optimized_ops.h lines
2499-2549): returns (zero_point, scale).  `qmin_float = 0`,
`qmax_float = 255`; when `rmin = rmax` both parameters stay at their
initial 0. -/
def FakeQuantParams (rmin rmax : ℚ) : Int × ℚ :=
  if rmin ≠ rmax then
    let qmin_float : ℚ := 0
    let qmax_float : ℚ := 255
    let scale := (rmax - rmin) / (qmax_float - qmin_float)
    let zero_point_from_min := qmin_float - rmin / scale
    let zero_point_from_max := qmax_float - rmax / scale
    let zero_point_from_min_error := |qmin_float| + |rmin / scale|
    let zero_point_from_max_error := |qmax_float| + |rmax / scale|
    let zero_point_float :=
      if zero_point_from_min_error < zero_point_from_max_error
      then zero_point_from_min else zero_point_from_max
    let zero_point : Int :=
      if zero_point_float < qmin_float then 0
      else if zero_point_float > qmax_float then 255
      else roundHalfAwayFromZero zero_point_float
    (zero_point, scale)
  else (0, 0)

/-- Per-element body of FakeQuant (optimized_ops.h lines 2559-2565):
round `zero_point + src/scale` to an integer, clamp to [0, 255],
dequantize back through the same affine map. -/
def FakeQuantElement (zero_point : Int) (scale : ℚ) (src_val : ℚ) : ℚ :=
  let unclamped_quantized_val : ℚ :=
    (roundHalfAwayFromZero ((zero_point : ℚ) + src_val / scale) : ℚ)
  let quantized_val : ℚ := min 255 (max 0 unclamped_quantized_val)
  scale * (quantized_val - (zero_point : ℚ))

/-- FakeQuant (optimized_ops.h lines 2489-2570) as a buffer transform: the
element loop applies `FakeQuantElement` with the derived parameters to
every element (input and output offsets coincide for the shape-matched
buffers). -/
def FakeQuant (rmin rmax : ℚ) (input_data : Int → ℚ) : Int → ℚ :=
  fun i =>
    FakeQuantElement (FakeQuantParams rmin rmax).1
      (FakeQuantParams rmin rmax).2 (input_data i)

/-- The input-normalization loop of GetInvSqrtQuantizedMultiplier
(optimized_ops.h lines 1182-1185): `while (input >= (1 << 29)) { input /= 4;
++*output_shift; }`.  The loop is embedded with a fuel argument that
strictly exceeds the possible iteration count (each iteration strictly
decreases `input.toNat`, so fuel `input.toNat` can never run out); the
theorem `invSqrtNormalize_eq` below proves the resulting function
satisfies exactly the while-loop unfolding. -/
def invSqrtNormalizeAux : Nat → Int → Int → Int × Int
  | 0, input, shift => (input, shift)
  | fuel + 1, input, shift =>
    if 2 ^ 29 ≤ input then invSqrtNormalizeAux fuel (input.tdiv 4) (shift + 1)
    else (input, shift)

/-- The normalization loop entered with the given running shift. -/
def invSqrtNormalize (input shift : Int) : Int × Int :=
  invSqrtNormalizeAux input.toNat input shift

/-- Binary logarithm with a fuel argument (fuel `n` always suffices since
the argument halves each step); proven equal to `Nat.log2` below. -/
def log2Aux : Nat → Nat → Nat
  | 0, _ => 0
  | fuel + 1, n => if 2 ≤ n then log2Aux fuel (n / 2) + 1 else 0

/-- Floor of the binary logarithm, computable by kernel reduction. -/
def floorLog2 (n : Nat) : Nat :=
  log2Aux n n

/-- Modelled from the compiler builtin contract: `__builtin_clz` on a
positive 32-bit value is `31 - floor(log2 n)` (junk on non-positive input,
where the source has already failed its `DCHECK_GT(input, 0)`). -/
def clz32 (n : Int) : Int :=
  31 - (floorLog2 n.toNat : Int)

/-- GetInvSqrtQuantizedMultiplier (optimized_ops.h lines 1179-1222):
normalize by the `/= 4` loop (shift starts at 11), left-shift by bit pairs
determined from the leading-zero count into the window `[2^27, 2^29)`,
run 5 Newton-Raphson iterations `x = Rescale<3>(half_three * x -
half_input * Rescale<3>(x*x*x))` on `F3` fixed-point raws starting from
`F3::One() = 2^28`, multiply by the `F0` constant `sqrt(2)/2` (raw
1518500250), and fold a negative shift into the multiplier.  The unsigned
intermediates (`max_left_shift_bits` etc.) are nonnegative for every
input that passes the DCHECKs, so plain `Int` arithmetic is faithful. -/
def GetInvSqrtQuantizedMultiplier (input : Int) : Int × Int :=
  let normalized := invSqrtNormalize input 11
  let max_left_shift_bits := clz32 normalized.1 - 1
  let max_left_shift_bit_pairs := max_left_shift_bits / 2
  let left_shift_bit_pairs := max_left_shift_bit_pairs - 1
  let output_shift := normalized.2 - left_shift_bit_pairs
  let input2 := normalized.1 * 2 ^ (2 * left_shift_bit_pairs).toNat
  let fixedpoint_input := input2.fdiv 2
  let fixedpoint_half_input :=
    SaturatingRoundingMultiplyByPOT (-1) fixedpoint_input
  let fixedpoint_half_three : Int := 2 ^ 28 + 2 ^ 27
  let x :=
    (fun x => SaturatingRoundingMultiplyByPOT 3
      (SaturatingRoundingDoublingHighMul fixedpoint_half_three x -
        SaturatingRoundingDoublingHighMul fixedpoint_half_input
          (SaturatingRoundingMultiplyByPOT 6
            (SaturatingRoundingDoublingHighMul
              (SaturatingRoundingDoublingHighMul x x) x))))^[5] (2 ^ 28)
  let output_inv_sqrt := SaturatingRoundingDoublingHighMul x 1518500250
  if output_shift < 0 then (output_inv_sqrt * 2 ^ (-output_shift).toNat, 0)
  else (output_inv_sqrt, output_shift)

/-- GetInvSqrtQuantizedMultiplier with its three DCHECKs modelled:
`DCHECK_GT(input, 0)` after the normalization loop (line 1186), and
`DCHECK_GE(input, 1 << 27)` / `DCHECK_LT(input, 1 << 29)` after the pair
shifts (lines 1192-1193); `none` when any fails. -/
def GetInvSqrtQuantizedMultiplierChecked (input : Int) : Option (Int × Int) :=
  if 0 < (invSqrtNormalize input 11).1 ∧
      2 ^ 27 ≤ (invSqrtNormalize input 11).1 *
        2 ^ (2 * ((clz32 (invSqrtNormalize input 11).1 - 1) / 2 - 1)).toNat ∧
      (invSqrtNormalize input 11).1 *
        2 ^ (2 * ((clz32 (invSqrtNormalize input 11).1 - 1) / 2 - 1)).toNat <
        2 ^ 29
  then some (GetInvSqrtQuantizedMultiplier input) else none

/-- The pipeline of GetInvSqrtQuantizedMultiplier with the Newton-Raphson
step replaced by the recurrence literally as the claim words it,
`x = x * (1.5 - 0.5*input*x^3)`, transliterated into the same fixed-point
primitives: `x3 = Rescale<3>(x*x*x)`, inner bracket
`half_three - Rescale<3>(half_input * x3)` in `F3`, and the outer product
`Rescale<3>(x * bracket)`.  Used to refute the claim's recurrence. -/
def GetInvSqrtQuantizedMultiplierClaimRecurrence (input : Int) : Int × Int :=
  let normalized := invSqrtNormalize input 11
  let max_left_shift_bits := clz32 normalized.1 - 1
  let max_left_shift_bit_pairs := max_left_shift_bits / 2
  let left_shift_bit_pairs := max_left_shift_bit_pairs - 1
  let output_shift := normalized.2 - left_shift_bit_pairs
  let input2 := normalized.1 * 2 ^ (2 * left_shift_bit_pairs).toNat
  let fixedpoint_input := input2.fdiv 2
  let fixedpoint_half_input :=
    SaturatingRoundingMultiplyByPOT (-1) fixedpoint_input
  let fixedpoint_half_three : Int := 2 ^ 28 + 2 ^ 27
  let x :=
    (fun x => SaturatingRoundingMultiplyByPOT 3
      (SaturatingRoundingDoublingHighMul x
        (fixedpoint_half_three -
          SaturatingRoundingMultiplyByPOT 3
            (SaturatingRoundingDoublingHighMul fixedpoint_half_input
              (SaturatingRoundingMultiplyByPOT 6
                (SaturatingRoundingDoublingHighMul
                  (SaturatingRoundingDoublingHighMul x x) x))))))^[5] (2 ^ 28)
  let output_inv_sqrt := SaturatingRoundingDoublingHighMul x 1518500250
  if output_shift < 0 then (output_inv_sqrt * 2 ^ (-output_shift).toNat, 0)
  else (output_inv_sqrt, output_shift)

/-- Normalization stage as the (amended) claim describes it: divide into
the exponent window via the `/= 4` loop, then shift left by bit pairs,
tracking both in the returned shift; yields the windowed input and the
shift. -/
def specInvSqrtNormalize (input : Int) : Int × Int :=
  let normalized := invSqrtNormalize input 11
  let left_shift_bit_pairs := (clz32 normalized.1 - 1) / 2 - 1
  (normalized.1 * 2 ^ (2 * left_shift_bit_pairs).toNat,
    normalized.2 - left_shift_bit_pairs)

/-- One Newton-Raphson iteration as the amended claim states it:
`x = 1.5*x - 0.5*input*x^3` (equivalently `x*(1.5 - 0.5*input*x^2)`) in
`F3` fixed point: `Rescale<3>(half_three*x - half_input*Rescale<3>(x^3))`,
where `half_input` is the windowed input halved twice (`F3::FromRaw(input
>> 1)` then a rounding halving). -/
def specInvSqrtNRStep (input2 x : Int) : Int :=
  let fixedpoint_half_input :=
    SaturatingRoundingMultiplyByPOT (-1) (input2.fdiv 2)
  SaturatingRoundingMultiplyByPOT 3
    (SaturatingRoundingDoublingHighMul (2 ^ 28 + 2 ^ 27) x -
      SaturatingRoundingDoublingHighMul fixedpoint_half_input
        (SaturatingRoundingMultiplyByPOT 6
          (SaturatingRoundingDoublingHighMul
            (SaturatingRoundingDoublingHighMul x x) x)))

/-- Final stage as the claim describes it: multiply the iterate by the
fixed-point constant `sqrt(2)/2` and return the (multiplier, shift) pair,
folding a negative shift into the multiplier. -/
def specInvSqrtFinalize (x shift : Int) : Int × Int :=
  let output_inv_sqrt := SaturatingRoundingDoublingHighMul x 1518500250
  if shift < 0 then (output_inv_sqrt * 2 ^ (-shift).toNat, 0)
  else (output_inv_sqrt, shift)

/-- The per-dimension scatter condition of the float AveragePool
(optimized_ops.h lines 1894-1899): output position `out_pos` lies in
`[h_start, h_end)` for input position `pos`, where
`h_start = (pos+pad < kernel) ? 0 : (pos+pad-kernel)/stride + 1` and
`h_end = min((pos+pad)/stride + 1, out_extent)`. -/
def avgPoolScatterCond (stride pad kernel out_extent pos out_pos : Int) :
    Prop :=
  (if pos + pad < kernel then 0 else (pos + pad - kernel) / stride + 1) ≤
      out_pos ∧
    out_pos < min ((pos + pad) / stride + 1) out_extent

instance (stride pad kernel out_extent pos out_pos : Int) :
    Decidable (avgPoolScatterCond stride pad kernel out_extent pos out_pos) := by
  unfold avgPoolScatterCond; infer_instance

/-- AveragePool (float), optimized_ops.h lines 1870-1926, value of output
element (c, pw, ph, b): the scatter loops accumulate every input cell
(h, w) into each output window it projects to (`out_mat.col(out_offset) +=
in_mat.col(...)`, `out_count(out_offset)++`), the accumulated column is
divided by its own `out_count`, and the fused activation is applied.  The
Eigen maps view the raw buffers with `depth = sizes[0]` rows, so column
`NodeOffset(b,h,w)` element `c` is the flat element
`((b*height + h)*width + w)*depth + c`. -/
def AveragePoolFloat (ac : FusedActivationFunctionType) (input_data : Int → ℚ)
    (input_dims : Dims4) (stride pad_width pad_height kwidth kheight : Int)
    (output_dims : Dims4) (c ph pw b : Int) : ℚ :=
  ActivationFunction ac
    ((∑ h ∈ Finset.Ico 0 (input_dims.sizes 2),
      ∑ w ∈ Finset.Ico 0 (input_dims.sizes 1),
        if avgPoolScatterCond stride pad_height kheight (output_dims.sizes 2)
            h ph ∧
            avgPoolScatterCond stride pad_width kwidth (output_dims.sizes 1)
              w pw
        then input_data (((b * input_dims.sizes 2 + h) * input_dims.sizes 1 +
          w) * input_dims.sizes 0 + c)
        else 0) /
    (∑ h ∈ Finset.Ico 0 (input_dims.sizes 2),
      ∑ w ∈ Finset.Ico 0 (input_dims.sizes 1),
        if avgPoolScatterCond stride pad_height kheight (output_dims.sizes 2)
            h ph ∧
            avgPoolScatterCond stride pad_width kwidth (output_dims.sizes 1)
              w pw
        then 1 else 0))

/-- The in-bounds input cells of the pooling window of output position
(ph, pw): input coordinates (h, w) inside the image that lie in the
`kheight × kwidth` window anchored at `(ph*stride - pad_height,
pw*stride - pad_width)`. -/
def poolWindowCells (input_height input_width stride pad_width pad_height
    kwidth kheight ph pw : Int) : Finset (Int × Int) :=
  (Finset.Ico 0 input_height ×ˢ Finset.Ico 0 input_width).filter
    (fun hw =>
      (ph * stride - pad_height ≤ hw.1 ∧
        hw.1 < ph * stride - pad_height + kheight) ∧
      (pw * stride - pad_width ≤ hw.2 ∧
        hw.2 < pw * stride - pad_width + kwidth))

/-- `filter_count` of the 8-bit AveragePool (optimized_ops.h lines
1954-1963): the product of the clipped filter ranges. -/
def avgPoolU8FilterCount (input_dims : Dims4)
    (stride pad_width pad_height filter_width filter_height
      out_x out_y : Int) : Int :=
  (min filter_width (input_dims.sizes 1 - (out_x * stride - pad_width)) -
      max 0 (-(out_x * stride - pad_width))) *
    (min filter_height (input_dims.sizes 2 - (out_y * stride - pad_height)) -
      max 0 (-(out_y * stride - pad_height)))

/-- The window accumulation of the 8-bit AveragePool (lines 1964-2002):
sum of the input bytes at the in-bounds filter positions; the channel walk
`*input_row_ptr++` of the source equals this element indexing for the
packed layouts the kernel is invoked with (`strides[1] = depth`). -/
def avgPoolU8Acc (input_data : Int → Int) (input_dims : Dims4)
    (stride pad_width pad_height filter_width filter_height
      c out_x out_y batch : Int) : Int :=
  ∑ fy ∈ Finset.Ico (max 0 (-(out_y * stride - pad_height)))
      (min filter_height
        (input_dims.sizes 2 - (out_y * stride - pad_height))),
    ∑ fx ∈ Finset.Ico (max 0 (-(out_x * stride - pad_width)))
        (min filter_width
          (input_dims.sizes 1 - (out_x * stride - pad_width))),
      input_data (c +
        input_dims.strides 1 * ((out_x * stride - pad_width) + fx) +
        input_dims.strides 2 * ((out_y * stride - pad_height) + fy) +
        input_dims.strides 3 * batch)

/-- AveragePool (uint8), optimized_ops.h lines 1928-2043, value of output
element (c, out_x, out_y, batch) per the scalar path: the window sum lives
in a `uint16` accumulator (wrap modelled by `% 65536`), the averaged value
is `(acc + filter_count/2) / filter_count` converted to `uint16`, clamped
with `std::max/min<uint16>` against the (converted) activation bounds, and
cast to `uint8` (`% 256`). -/
def AveragePoolUint8 (input_data : Int → Int) (input_dims : Dims4)
    (stride pad_width pad_height filter_width filter_height
      output_activation_min output_activation_max
      c out_x out_y batch : Int) : Int :=
  let filter_count := avgPoolU8FilterCount input_dims stride pad_width
    pad_height filter_width filter_height out_x out_y
  let acc := avgPoolU8Acc input_data input_dims stride pad_width pad_height
    filter_width filter_height c out_x out_y batch % 65536
  let a := (acc + filter_count.tdiv 2).tdiv filter_count % 65536
  let a2 := max a (output_activation_min % 65536)
  let a3 := min a2 (output_activation_max % 65536)
  a3 % 256

/-- The in-bounds filter positions of the 8-bit AveragePool for output
position (out_x, out_y): filter coordinates (fy, fx) whose input cell
lies inside the image. -/
def poolFilterPositions (input_dims : Dims4)
    (stride pad_width pad_height filter_width filter_height
      out_x out_y : Int) : Finset (Int × Int) :=
  (Finset.Ico 0 filter_height ×ˢ Finset.Ico 0 filter_width).filter
    (fun p =>
      (0 ≤ (out_y * stride - pad_height) + p.1 ∧
        (out_y * stride - pad_height) + p.1 < input_dims.sizes 2) ∧
      (0 ≤ (out_x * stride - pad_width) + p.2 ∧
        (out_x * stride - pad_width) + p.2 < input_dims.sizes 1))

/-- Value written by `ExtractPatchIntoBufferColumn` (optimized_ops.h lines
648-731) for patch element (kr, kc, d) of the patch of output position
(b, h, w): the memcpy rows copy the in-bounds input cells
`input[Offset(d, iw, ih, b)]` with `ih = h*stride - pad_height + kr`,
`iw = w*stride - pad_width + kc`, and the memsets fill every
out-of-bounds element (top/bottom rows, left/right columns) with
`byte_zero`. -/
def Im2colElem {α : Type} (input_data : Int → α) (input_dims : Dims4)
    (stride pad_width pad_height : Int) (byte_zero : α)
    (b h w kr kc d : Int) : α :=
  if 0 ≤ h * stride - pad_height + kr ∧
      h * stride - pad_height + kr < input_dims.sizes 2 ∧
      0 ≤ w * stride - pad_width + kc ∧
      w * stride - pad_width + kc < input_dims.sizes 1
  then input_data (Offset input_dims d (w * stride - pad_width + kc)
    (h * stride - pad_height + kr) b)
  else byte_zero

/-- Im2col (optimized_ops.h lines 733-761) as the resulting buffer
content: `buffer_id` increments over (b, h, w) in loop order, so the
element at flat index `idx` of the packed conv buffer (whose
`single_buffer_length` is `output_dims.sizes[0] =
kheight*kwidth*input_depth`) belongs to patch
`buffer_id = idx / sbl = ((b*output_height + h)*output_width + w)` at
patch offset `(kr*kwidth + kc)*input_depth + d = idx % sbl`. -/
def Im2col {α : Type} (input_data : Int → α) (input_dims : Dims4)
    (stride pad_width pad_height kheight kwidth : Int) (byte_zero : α)
    (output_dims : Dims4) : Int → α :=
  fun idx =>
    Im2colElem input_data input_dims stride pad_width pad_height byte_zero
      (idx / output_dims.sizes 0 / output_dims.sizes 1 / output_dims.sizes 2)
      (idx / output_dims.sizes 0 / output_dims.sizes 1 % output_dims.sizes 2)
      (idx / output_dims.sizes 0 % output_dims.sizes 1)
      (idx % output_dims.sizes 0 / input_dims.sizes 0 / kwidth)
      (idx % output_dims.sizes 0 / input_dims.sizes 0 % kwidth)
      (idx % output_dims.sizes 0 % input_dims.sizes 0)

/-- Modelled from the Eigen contract (an external black box): the float
Conv's matrix product.  `MapAsMatrixWithLastDimAsCols` views the filter
with `rows = sizes[0]*sizes[1]*sizes[2]`, entry (r, i) =
`filter_data[i*rows + r]`; `MapAsMatrixWithFirstDimAsRows` views the GEMM
input column-major with `rows = dims.sizes[0]`; `Gemm` (both its GEMV and
GEMM branches) computes `output = filterᵀ × gemm_input`, stored
column-major with `output_rows = output_dims.sizes[0]` rows, so the flat
output element `idx = j*output_rows + i` is
`∑ r, filter(r, i) * gemm_input(r, j)`. -/
def ConvGemmOutput (gemm_input : Int → ℚ) (gemm_input_rows : Int)
    (filter_data : Int → ℚ) (filter_dims : Dims4) (output_rows : Int)
    (idx : Int) : ℚ :=
  ∑ r ∈ Finset.Ico 0
      (filter_dims.sizes 0 * filter_dims.sizes 1 * filter_dims.sizes 2),
    filter_data ((idx % output_rows) *
        (filter_dims.sizes 0 * filter_dims.sizes 1 * filter_dims.sizes 2) + r) *
      gemm_input ((idx / output_rows) * gemm_input_rows + r)

/-- Conv (float), optimized_ops.h lines 763-803: when
`stride != 1 || filter_width != 1 || filter_height != 1` the GEMM input is
the im2col buffer (zero fill value 0), otherwise the input buffer is fed
directly; then the matrix multiply, bias addition
(`bias_size = bias_dims.sizes[3]*bias_dims.strides[3]`, bias index
`idx % bias_size`) and the fused activation. -/
def ConvFloat (ac : FusedActivationFunctionType) (input_data : Int → ℚ)
    (input_dims : Dims4) (filter_data : Int → ℚ) (filter_dims : Dims4)
    (bias_data : Int → ℚ) (bias_dims : Dims4)
    (stride pad_width pad_height : Int) (output_dims im2col_dims : Dims4)
    (idx : Int) : ℚ :=
  ActivationFunction ac
    (ConvGemmOutput
      (if stride ≠ 1 ∨ filter_dims.sizes 1 ≠ 1 ∨ filter_dims.sizes 2 ≠ 1
        then Im2col input_data input_dims stride pad_width pad_height
          (filter_dims.sizes 2) (filter_dims.sizes 1) 0 im2col_dims
        else input_data)
      (if stride ≠ 1 ∨ filter_dims.sizes 1 ≠ 1 ∨ filter_dims.sizes 2 ≠ 1
        then im2col_dims.sizes 0 else input_dims.sizes 0)
      filter_data filter_dims (output_dims.sizes 0) idx +
    bias_data (idx % (bias_dims.sizes 3 * bias_dims.strides 3)))

/-- The float Conv with the im2col path forced on regardless of kernel
size and stride (the reference pipeline of the claim). -/
def ConvFloatAlwaysIm2col (ac : FusedActivationFunctionType)
    (input_data : Int → ℚ) (input_dims : Dims4) (filter_data : Int → ℚ)
    (filter_dims : Dims4) (bias_data : Int → ℚ) (bias_dims : Dims4)
    (stride pad_width pad_height : Int) (output_dims im2col_dims : Dims4)
    (idx : Int) : ℚ :=
  ActivationFunction ac
    (ConvGemmOutput
      (Im2col input_data input_dims stride pad_width pad_height
        (filter_dims.sizes 2) (filter_dims.sizes 1) 0 im2col_dims)
      (im2col_dims.sizes 0) filter_data filter_dims (output_dims.sizes 0)
      idx +
    bias_data (idx % (bias_dims.sizes 3 * bias_dims.strides 3)))

/-- Modelled from the spec (gemmlowp GEMM is an external black box with
the stated numeric contract): quantized matrix multiply with operand
zero-point offsets followed by the output pipeline of §`GemmlowpOutputPipeline`.
The filter is viewed row-major with
`filter_cols = filter_dims.sizes[0]*sizes[1]*sizes[2]` and
`filter_rows = filter_dims.sizes[3]`; the GEMM input column-major with
`gemm_input_rows` rows; output column-major with `output_rows` rows. -/
def ConvUint8GemmOutput (ac : FusedActivationFunctionType)
    (gemm_input : Int → Int) (gemm_input_rows input_offset : Int)
    (filter_data : Int → Int) (filter_offset filter_cols : Int)
    (bias_data : Int → Int)
    (output_offset output_multiplier output_shift : Int)
    (output_activation_min output_activation_max : Int)
    (output_rows idx : Int) : Int :=
  if ac = .kNone then
    GemmlowpOutputPipelineNoneApply bias_data output_offset output_multiplier
      output_shift (idx % output_rows)
      (∑ r ∈ Finset.Ico 0 filter_cols,
        (filter_data ((idx % output_rows) * filter_cols + r) + filter_offset) *
          (gemm_input ((idx / output_rows) * gemm_input_rows + r) +
            input_offset))
  else
    GemmlowpOutputPipelineClampingApply bias_data output_offset
      output_multiplier output_shift output_activation_min
      output_activation_max (idx % output_rows)
      (∑ r ∈ Finset.Ico 0 filter_cols,
        (filter_data ((idx % output_rows) * filter_cols + r) + filter_offset) *
          (gemm_input ((idx / output_rows) * gemm_input_rows + r) +
            input_offset))

/-- Conv (uint8), optimized_ops.h lines 805-878: same im2col decision as
the float path, with the im2col zero fill value being the input
zero-point `-input_offset`; then the quantized GEMM with the output
pipeline selected by the activation tag. -/
def ConvUint8 (ac : FusedActivationFunctionType) (input_data : Int → Int)
    (input_dims : Dims4) (input_offset : Int) (filter_data : Int → Int)
    (filter_dims : Dims4) (filter_offset : Int) (bias_data : Int → Int)
    (stride pad_width pad_height : Int)
    (output_offset output_multiplier output_shift : Int)
    (output_activation_min output_activation_max : Int)
    (output_dims im2col_dims : Dims4) (idx : Int) : Int :=
  ConvUint8GemmOutput ac
    (if stride ≠ 1 ∨ filter_dims.sizes 1 ≠ 1 ∨ filter_dims.sizes 2 ≠ 1
      then Im2col input_data input_dims stride pad_width pad_height
        (filter_dims.sizes 2) (filter_dims.sizes 1) (-input_offset)
        im2col_dims
      else input_data)
    (if stride ≠ 1 ∨ filter_dims.sizes 1 ≠ 1 ∨ filter_dims.sizes 2 ≠ 1
      then im2col_dims.sizes 0 else input_dims.sizes 0)
    input_offset filter_data filter_offset
    (filter_dims.sizes 0 * filter_dims.sizes 1 * filter_dims.sizes 2)
    bias_data output_offset output_multiplier output_shift
    output_activation_min output_activation_max (output_dims.sizes 0) idx

/-- The uint8 Conv with the im2col path forced on. -/
def ConvUint8AlwaysIm2col (ac : FusedActivationFunctionType)
    (input_data : Int → Int) (input_dims : Dims4) (input_offset : Int)
    (filter_data : Int → Int) (filter_dims : Dims4) (filter_offset : Int)
    (bias_data : Int → Int) (stride pad_width pad_height : Int)
    (output_offset output_multiplier output_shift : Int)
    (output_activation_min output_activation_max : Int)
    (output_dims im2col_dims : Dims4) (idx : Int) : Int :=
  ConvUint8GemmOutput ac
    (Im2col input_data input_dims stride pad_width pad_height
      (filter_dims.sizes 2) (filter_dims.sizes 1) (-input_offset)
      im2col_dims)
    (im2col_dims.sizes 0) input_offset filter_data filter_offset
    (filter_dims.sizes 0 * filter_dims.sizes 1 * filter_dims.sizes 2)
    bias_data output_offset output_multiplier output_shift
    output_activation_min output_activation_max (output_dims.sizes 0) idx

/-- Concatenation of two inputs along dimension 0 (optimized_ops.h lines
1708-1742, with `concat_dim = 0` and two inputs as LstmCell uses it):
`outer_size = product of output sizes[1..3]`; for each outer index `k`
the output receives `copy_size_0 = sizes[0]*strides[0]` elements of
input 0 followed by `copy_size_1` elements of input 1.  Flat output index
`idx` decomposes as `k = idx / (copy0 + copy1)`,
`r = idx % (copy0 + copy1)`. -/
def Concatenation2Dim0 (input0_data : Int → ℚ) (copy0 : Int)
    (input1_data : Int → ℚ) (copy1 : Int) : Int → ℚ :=
  fun idx =>
    if idx % (copy0 + copy1) < copy0 then
      input0_data ((idx / (copy0 + copy1)) * copy0 + idx % (copy0 + copy1))
    else
      input1_data ((idx / (copy0 + copy1)) * copy1 +
        (idx % (copy0 + copy1) - copy0))

/-- FullyConnected (float), optimized_ops.h lines 332-357: the input is
viewed column-major with `input_rows = weights_dims.sizes[0]` rows, the
weights with first dim as rows, and `Gemm` computes `weightsᵀ × input`
into the column-major output (`output_rows = output_dims.sizes[0]`); then
`AddBiasAndEvalActivationFunction` adds `bias[idx % bias_size]`
(`bias_size = bias_dims.sizes[3]*bias_dims.strides[3]`) and applies the
fused activation. -/
def FullyConnectedFloat (ac : FusedActivationFunctionType)
    (input_data : Int → ℚ) (weights_data : Int → ℚ) (weights_dims : Dims4)
    (bias_data : Int → ℚ) (bias_dims : Dims4) (output_dims : Dims4)
    (idx : Int) : ℚ :=
  ActivationFunction ac
    ((∑ r ∈ Finset.Ico 0 (weights_dims.sizes 0),
      weights_data ((idx % output_dims.sizes 0) * weights_dims.sizes 0 + r) *
        input_data ((idx / output_dims.sizes 0) * weights_dims.sizes 0 + r)) +
    bias_data (idx % (bias_dims.sizes 3 * bias_dims.strides 3)))

/-- LstmCell (optimized_ops.h lines 1752-1835): concatenate input and
previous activation along depth, run the float FullyConnected with the
combined gate weights/bias into `activ_temp`, view `activ_temp` with
`activ_temp_dims.sizes[0]` rows and slice four row blocks of
`output_depth = prev_state_dims.sizes[0]` rows at offsets 0, od, 2·od,
3·od (input gate, new input, forget gate, output gate), and combine:
`output_state = sigmoid(input_gate)*tanh(new_input) +
sigmoid(forget_gate)*prev_state`,
`output_activ = sigmoid(output_gate)*tanh(output_state)`.  Each output
buffer is indexed column-major with its own `sizes[0]` rows.  Returns
(output_state, output_activ). -/
def LstmCell (sigmoid tanh_fn : ℚ → ℚ) (input_data : Int → ℚ)
    (input_dims : Dims4) (prev_activ_data : Int → ℚ)
    (prev_activ_dims : Dims4) (weights_data : Int → ℚ)
    (weights_dims : Dims4) (bias_data : Int → ℚ) (bias_dims : Dims4)
    (prev_state_data : Int → ℚ) (prev_state_dims : Dims4)
    (output_state_dims output_activ_dims activ_temp_dims : Dims4) :
    (Int → ℚ) × (Int → ℚ) :=
  let activ_temp := FullyConnectedFloat .kNone
    (Concatenation2Dim0 input_data
      (input_dims.sizes 0 * input_dims.strides 0) prev_activ_data
      (prev_activ_dims.sizes 0 * prev_activ_dims.strides 0))
    weights_data weights_dims bias_data bias_dims activ_temp_dims
  let output_state := fun idx =>
    sigmoid (activ_temp ((idx / output_state_dims.sizes 0) *
        activ_temp_dims.sizes 0 + 0 * prev_state_dims.sizes 0 +
        idx % output_state_dims.sizes 0)) *
      tanh_fn (activ_temp ((idx / output_state_dims.sizes 0) *
        activ_temp_dims.sizes 0 + 1 * prev_state_dims.sizes 0 +
        idx % output_state_dims.sizes 0)) +
    sigmoid (activ_temp ((idx / output_state_dims.sizes 0) *
        activ_temp_dims.sizes 0 + 2 * prev_state_dims.sizes 0 +
        idx % output_state_dims.sizes 0)) *
      prev_state_data ((idx / output_state_dims.sizes 0) *
        prev_state_dims.sizes 0 + idx % output_state_dims.sizes 0)
  (output_state, fun idx =>
    sigmoid (activ_temp ((idx / output_activ_dims.sizes 0) *
        activ_temp_dims.sizes 0 + 3 * prev_state_dims.sizes 0 +
        idx % output_activ_dims.sizes 0)) *
      tanh_fn (output_state ((idx / output_activ_dims.sizes 0) *
        output_state_dims.sizes 0 + idx % output_activ_dims.sizes 0)))

/-- The `q`-th quarter (q = 0 input gate, 1 new input, 2 forget gate,
3 output gate) of the fully-connected gate pre-activations of the LSTM
cell, at output position `idx` of a depth-`od` output buffer: the value
the FullyConnected stage wrote at row `q*od + (idx % od)` of column
`idx / od` of the (4·od)-row `activ_temp` buffer. -/
def lstmGatePreactivation (input_data : Int → ℚ) (input_dims : Dims4)
    (prev_activ_data : Int → ℚ) (prev_activ_dims : Dims4)
    (weights_data : Int → ℚ) (weights_dims : Dims4) (bias_data : Int → ℚ)
    (bias_dims : Dims4) (activ_temp_dims : Dims4) (od q idx : Int) : ℚ :=
  FullyConnectedFloat .kNone
    (Concatenation2Dim0 input_data
      (input_dims.sizes 0 * input_dims.strides 0) prev_activ_data
      (prev_activ_dims.sizes 0 * prev_activ_dims.strides 0))
    weights_data weights_dims bias_data bias_dims activ_temp_dims
    ((idx / od) * (4 * od) + q * od + idx % od)

/-! ## Theorems -/

/-- C6: for rank-4 shapes, `NdArrayDescsForElementwiseBroadcast` per
dimension: equal extents leave each operand's extent and stride unchanged;
with unequal extents the extent-1 operand's descriptor receives the other
operand's extent and stride 0 (so `SubscriptToIndex` is invariant in any
coordinate whose stride is 0, revisiting the same element), and the other
operand's descriptor is unchanged; if some dimension has differing extents
neither of which is 1, the checked variant reports the precondition
violation. -/
theorem claim_C6_broadcast_resolver (d0 d1 : Dims4) :
    (∀ i : Fin 4, d0.sizes i = d1.sizes i →
      (NdArrayDescsForElementwiseBroadcast d0 d1).1.extents i = d0.sizes i ∧
      (NdArrayDescsForElementwiseBroadcast d0 d1).1.strides i = d0.strides i ∧
      (NdArrayDescsForElementwiseBroadcast d0 d1).2.extents i = d1.sizes i ∧
      (NdArrayDescsForElementwiseBroadcast d0 d1).2.strides i = d1.strides i) ∧
    (∀ i : Fin 4, d0.sizes i ≠ d1.sizes i → d0.sizes i = 1 →
      (NdArrayDescsForElementwiseBroadcast d0 d1).1.extents i = d1.sizes i ∧
      (NdArrayDescsForElementwiseBroadcast d0 d1).1.strides i = 0 ∧
      (NdArrayDescsForElementwiseBroadcast d0 d1).2.extents i = d1.sizes i ∧
      (NdArrayDescsForElementwiseBroadcast d0 d1).2.strides i = d1.strides i) ∧
    (∀ i : Fin 4, d0.sizes i ≠ d1.sizes i → d0.sizes i ≠ 1 →
      (NdArrayDescsForElementwiseBroadcast d0 d1).2.extents i = d0.sizes i ∧
      (NdArrayDescsForElementwiseBroadcast d0 d1).2.strides i = 0 ∧
      (NdArrayDescsForElementwiseBroadcast d0 d1).1.extents i = d0.sizes i ∧
      (NdArrayDescsForElementwiseBroadcast d0 d1).1.strides i = d0.strides i) ∧
    (∀ desc : NdArrayDesc4, ∀ v v' : Fin 4 → Int,
      (∀ j : Fin 4, desc.strides j = 0 ∨ v j = v' j) →
      SubscriptToIndex desc (v 0) (v 1) (v 2) (v 3) =
        SubscriptToIndex desc (v' 0) (v' 1) (v' 2) (v' 3)) ∧
    (NdArrayDescsForElementwiseBroadcastChecked d0 d1 = none ↔
      ¬ ∀ i : Fin 4, d0.sizes i = d1.sizes i ∨ d0.sizes i = 1 ∨ d1.sizes i = 1) := by
  refine ⟨?_, ?_, ?_, ?_, ?_⟩
  · intro i h
    simp [NdArrayDescsForElementwiseBroadcast, h]
  · intro i h h1
    simp only [NdArrayDescsForElementwiseBroadcast]
    rw [if_pos ⟨h, h1⟩, if_pos ⟨h, h1⟩, if_neg (fun hc => hc.2 h1),
      if_neg (fun hc => hc.2 h1)]
    exact ⟨rfl, rfl, rfl, rfl⟩
  · intro i h h1
    simp only [NdArrayDescsForElementwiseBroadcast]
    rw [if_pos ⟨h, h1⟩, if_pos ⟨h, h1⟩, if_neg (fun hc => h1 hc.2),
      if_neg (fun hc => h1 hc.2)]
    exact ⟨rfl, rfl, rfl, rfl⟩
  · intro desc v v' h
    have e : ∀ j : Fin 4, v j * desc.strides j = v' j * desc.strides j := by
      intro j
      rcases h j with h0 | h0
      · rw [h0]; ring
      · rw [h0]
    unfold SubscriptToIndex
    rw [e 0, e 1, e 2, e 3]
  · unfold NdArrayDescsForElementwiseBroadcastChecked
    split
    · simp_all
    · simp_all

/-- Witness for C6 at concrete shapes (1,16,16,64)-style dims as in the
source comment: operand 0 has extent 1 in dimension 1 where operand 1 has
extent 5; its descriptor gets extent 5 and stride 0 there. -/
theorem claim_C6_broadcast_resolver_witness :
    ((Dims4.mk ![2, 1, 3, 1] ![1, 2, 2, 6]).sizes 1 ≠
       (Dims4.mk ![2, 5, 3, 1] ![1, 2, 10, 30]).sizes 1) ∧
    (NdArrayDescsForElementwiseBroadcast (Dims4.mk ![2, 1, 3, 1] ![1, 2, 2, 6])
        (Dims4.mk ![2, 5, 3, 1] ![1, 2, 10, 30])).1.extents 1 = 5 ∧
    (NdArrayDescsForElementwiseBroadcast (Dims4.mk ![2, 1, 3, 1] ![1, 2, 2, 6])
        (Dims4.mk ![2, 5, 3, 1] ![1, 2, 10, 30])).1.strides 1 = 0 := by
  refine ⟨by decide, ?_⟩
  have h := (claim_C6_broadcast_resolver (Dims4.mk ![2, 1, 3, 1] ![1, 2, 2, 6])
    (Dims4.mk ![2, 5, 3, 1] ![1, 2, 10, 30])).2.1 1 (by decide) (by decide)
  exact ⟨h.1.trans (by decide), h.2.1⟩

/-! The gemmlowp output stages used by the quantized FullyConnected/Conv
pipelines (optimized_ops.h lines 529-586).  The stage semantics
(bias addition, fixed-point quantize-down, clamp, saturating cast) are the
external gemmlowp contract described by the spec. -/

/-- C8: the quantized output stage for fused activation None requires
`output_activation_min = 0` and `output_activation_max = 255` as a
precondition (its checked `Make` fails otherwise), and under that
precondition omitting the clamp stage is semantically neutral: the
pipeline without clamp agrees with the clamping pipeline at bounds
[0, 255], because the saturating cast to uint8 already enforces that
range. -/
theorem claim_C8_none_pipeline_full_range (bias : Int → Int)
    (output_offset output_multiplier output_shift : Int)
    (output_activation_min output_activation_max : Int)
    (hmin : output_activation_min = 0) (hmax : output_activation_max = 255) :
    GemmlowpOutputPipelineNoneMakeChecked bias output_offset output_multiplier
        output_shift output_activation_min output_activation_max =
      some (GemmlowpOutputPipelineNoneApply bias output_offset
        output_multiplier output_shift) ∧
    (∀ amin amax, ¬ (amin = 0 ∧ amax = 255) →
      GemmlowpOutputPipelineNoneMakeChecked bias output_offset
        output_multiplier output_shift amin amax = none) ∧
    (∀ row acc,
      GemmlowpOutputPipelineNoneApply bias output_offset output_multiplier
          output_shift row acc =
        GemmlowpOutputPipelineClampingApply bias output_offset
          output_multiplier output_shift output_activation_min
          output_activation_max row acc) := by
  subst hmin hmax
  refine ⟨by simp [GemmlowpOutputPipelineNoneMakeChecked], ?_, ?_⟩
  · intro amin amax h
    simp [GemmlowpOutputPipelineNoneMakeChecked, h]
  · intro row acc
    unfold GemmlowpOutputPipelineNoneApply GemmlowpOutputPipelineClampingApply
      OutputStageSaturatingCastToUint8
    simp only [min_def, max_def]
    split_ifs <;> omega

/-- Witness for C8 at concrete pipeline parameters. -/
theorem claim_C8_none_pipeline_full_range_witness :
    (0 : Int) = 0 ∧ (255 : Int) = 255 ∧
    GemmlowpOutputPipelineNoneApply (fun k => k) 3 1073741824 1 0 100 =
      GemmlowpOutputPipelineClampingApply (fun k => k) 3 1073741824 1 0 255
        0 100 :=
  ⟨rfl, rfl,
    (claim_C8_none_pipeline_full_range (fun k => k) 3 1073741824 1 0 255 rfl
      rfl).2.2 0 100⟩

/-- C2: every element of the quantized 8-bit Add is the claimed formula
(offset, shift left by `left_shift`, per-operand rescale, sum, output
rescale, output offset, clamp to [0, 255]); the broadcast variant computes
the same per-element formula on the operands selected by the broadcast
descriptors. -/
theorem claim_C2_quantized_add_formula (left_shift : Int)
    (input1_data : Int → Int) (input1_dims : Dims4)
    (input1_offset input1_multiplier input1_shift : Int)
    (input2_data : Int → Int) (input2_dims : Dims4)
    (input2_offset input2_multiplier input2_shift : Int)
    (output_offset output_multiplier output_shift : Int) :
    (∀ i, AddUint8 left_shift
        input1_data input1_offset input1_multiplier input1_shift
        input2_data input2_offset input2_multiplier input2_shift
        output_offset output_multiplier output_shift i =
      specQuantizedAddElement left_shift
        input1_offset input1_multiplier input1_shift
        input2_offset input2_multiplier input2_shift
        output_offset output_multiplier output_shift
        (input1_data i) (input2_data i)) ∧
    (∀ c x y b, BroadcastAddUint8 left_shift
        input1_data input1_dims input1_offset input1_multiplier input1_shift
        input2_data input2_dims input2_offset input2_multiplier input2_shift
        output_offset output_multiplier output_shift c x y b =
      specQuantizedAddElement left_shift
        input1_offset input1_multiplier input1_shift
        input2_offset input2_multiplier input2_shift
        output_offset output_multiplier output_shift
        (input1_data (SubscriptToIndex
          (NdArrayDescsForElementwiseBroadcast input1_dims input2_dims).1
          c x y b))
        (input2_data (SubscriptToIndex
          (NdArrayDescsForElementwiseBroadcast input1_dims input2_dims).2
          c x y b))) := by
  constructor
  · intro i
    simp only [AddUint8, specQuantizedAddElement]
    rw [Int.add_comm input1_offset (input1_data i),
      Int.add_comm input2_offset (input2_data i)]
  · intro c x y b
    simp only [BroadcastAddUint8, specQuantizedAddElement]
    rw [Int.add_comm input1_offset _, Int.add_comm input2_offset _]

theorem roundHalfAwayFromZero_intCast (n : Int) :
    roundHalfAwayFromZero (n : ℚ) = n := by
  unfold roundHalfAwayFromZero
  split
  · rw [Int.floor_int_add]
    norm_num
  · rw [show ((n : ℚ) - 1 / 2) = (-(1 / 2) + (n : ℚ)) by ring,
      Int.ceil_add_int]
    norm_num

theorem clampQ_idem (q : ℚ) :
    min 255 (max 0 (min 255 (max 0 q))) = min 255 (max 0 q) := by
  simp only [min_def, max_def]
  split_ifs <;> linarith

theorem fakeQuantElement_idem (zp : Int) (scale : ℚ) (hs : scale ≠ 0)
    (x : ℚ) :
    FakeQuantElement zp scale (FakeQuantElement zp scale x) =
      FakeQuantElement zp scale x := by
  unfold FakeQuantElement
  have hdiv : scale * (min 255 (max 0
      ((roundHalfAwayFromZero ((zp : ℚ) + x / scale) : Int) : ℚ)) - (zp : ℚ)) /
        scale =
      min 255 (max 0
        ((roundHalfAwayFromZero ((zp : ℚ) + x / scale) : Int) : ℚ)) - (zp : ℚ) :=
    mul_div_cancel_left₀ _ hs
  rw [hdiv]
  have hcast : min (255 : ℚ) (max 0
      ((roundHalfAwayFromZero ((zp : ℚ) + x / scale) : Int) : ℚ)) =
      ((min 255 (max 0 (roundHalfAwayFromZero ((zp : ℚ) + x / scale))) : Int) : ℚ) := by
    push_cast
    rfl
  rw [show (zp : ℚ) + (min 255 (max 0
      ((roundHalfAwayFromZero ((zp : ℚ) + x / scale) : Int) : ℚ)) - (zp : ℚ)) =
      min 255 (max 0
        ((roundHalfAwayFromZero ((zp : ℚ) + x / scale) : Int) : ℚ)) by ring]
  rw [hcast, roundHalfAwayFromZero_intCast, ← hcast]
  simp only [clampQ_idem]

/-- C5: FakeQuant with a fixed range containing 0 is idempotent: applying
it twice with the same (rmin, rmax) gives the same buffer as applying it
once, element-wise. -/
theorem claim_C5_fakequant_idempotent (rmin rmax : ℚ)
    (hmin : rmin ≤ 0) (hmax : 0 ≤ rmax) (input_data : Int → ℚ) (i : Int) :
    FakeQuant rmin rmax (FakeQuant rmin rmax input_data) i =
      FakeQuant rmin rmax input_data i := by
  unfold FakeQuant
  by_cases hrr : rmin = rmax
  · have hp : FakeQuantParams rmin rmax = (0, 0) := by
      unfold FakeQuantParams
      rw [if_neg (by simpa using hrr)]
    rw [hp]
    unfold FakeQuantElement
    norm_num
  · have hs : (FakeQuantParams rmin rmax).2 ≠ 0 := by
      have hlt : rmin < rmax := lt_of_le_of_ne (hmin.trans hmax) hrr
      have h2 : (0 : ℚ) < (rmax - rmin) / ((255 : ℚ) - 0) :=
        div_pos (by linarith) (by norm_num)
      unfold FakeQuantParams
      rw [if_pos hrr]
      exact ne_of_gt h2
    exact fakeQuantElement_idem _ _ hs _

/-- Witness for C5 at rmin = -1, rmax = 3, input constantly 2/3. -/
theorem claim_C5_fakequant_idempotent_witness :
    ((-1 : ℚ) ≤ 0) ∧ ((0 : ℚ) ≤ 3) ∧
    FakeQuant (-1) 3 (FakeQuant (-1) 3 (fun _ => 2 / 3)) 0 =
      FakeQuant (-1) 3 (fun _ => 2 / 3) 0 :=
  ⟨by norm_num, by norm_num,
    claim_C5_fakequant_idempotent (-1) 3 (by norm_num) (by norm_num)
      (fun _ => 2 / 3) 0⟩

theorem invSqrtNormalizeAux_succ (f : Nat) (input shift : Int) :
    invSqrtNormalizeAux (f + 1) input shift =
      if 2 ^ 29 ≤ input then invSqrtNormalizeAux f (input.tdiv 4) (shift + 1)
      else (input, shift) := rfl

theorem invSqrt_tdiv4_bounds (input : Int) (h : 2 ^ 29 ≤ input) :
    0 < input.tdiv 4 ∧ (input.tdiv 4).toNat < input.toNat := by
  rw [Int.tdiv_eq_ediv (by omega) (by norm_num)]
  omega

theorem invSqrtNormalizeAux_norm (f : Nat) :
    ∀ (input shift : Int), input.toNat ≤ f →
      invSqrtNormalizeAux f input shift =
        invSqrtNormalizeAux input.toNat input shift := by
  induction f using Nat.strong_induction_on with
  | _ f ih =>
    intro input shift hf
    cases f with
    | zero =>
      have h0 : input.toNat = 0 := by omega
      rw [h0]
    | succ f =>
      by_cases h29 : 2 ^ 29 ≤ input
      · obtain ⟨hp, hlt⟩ := invSqrt_tdiv4_bounds input h29
        have ht : input.toNat = (input.toNat - 1) + 1 := by omega
        rw [invSqrtNormalizeAux_succ, if_pos h29, ht,
          invSqrtNormalizeAux_succ, if_pos h29]
        rw [ih f (by omega) _ _ (by omega),
          ih (input.toNat - 1) (by omega) _ _ (by omega)]
      · rw [invSqrtNormalizeAux_succ, if_neg h29]
        cases hn : input.toNat with
        | zero => rfl
        | succ k => rw [invSqrtNormalizeAux_succ, if_neg h29]

/-- The fuel-based embedding of the normalization loop satisfies exactly
the while-loop unfolding of optimized_ops.h lines 1182-1185. -/
theorem invSqrtNormalize_eq (input shift : Int) :
    invSqrtNormalize input shift =
      if 2 ^ 29 ≤ input then invSqrtNormalize (input.tdiv 4) (shift + 1)
      else (input, shift) := by
  unfold invSqrtNormalize
  by_cases h29 : 2 ^ 29 ≤ input
  · rw [if_pos h29]
    obtain ⟨hp, hlt⟩ := invSqrt_tdiv4_bounds input h29
    have ht : input.toNat = (input.toNat - 1) + 1 := by omega
    rw [ht, invSqrtNormalizeAux_succ, if_pos h29]
    exact invSqrtNormalizeAux_norm (input.toNat - 1) _ _ (by omega)
  · rw [if_neg h29]
    cases hn : input.toNat with
    | zero => rfl
    | succ k => rw [invSqrtNormalizeAux_succ, if_neg h29]

theorem invSqrtNormalizeAux_fst_pos (f : Nat) :
    ∀ (input shift : Int), 0 < input →
      0 < (invSqrtNormalizeAux f input shift).1 := by
  induction f with
  | zero => intro input shift h; exact h
  | succ f ih =>
    intro input shift h
    rw [invSqrtNormalizeAux_succ]
    by_cases h29 : 2 ^ 29 ≤ input
    · rw [if_pos h29]
      exact ih _ _ (invSqrt_tdiv4_bounds input h29).1
    · rw [if_neg h29]
      exact h

theorem invSqrtNormalizeAux_fst_lt (f : Nat) :
    ∀ (input shift : Int), input.toNat ≤ f →
      (invSqrtNormalizeAux f input shift).1 < 2 ^ 29 := by
  induction f with
  | zero =>
    intro input shift h
    show input < 2 ^ 29
    omega
  | succ f ih =>
    intro input shift h
    rw [invSqrtNormalizeAux_succ]
    by_cases h29 : 2 ^ 29 ≤ input
    · rw [if_pos h29]
      refine ih _ _ ?_
      obtain ⟨hp, hlt⟩ := invSqrt_tdiv4_bounds input h29
      omega
    · rw [if_neg h29]
      show input < 2 ^ 29
      omega

/-- After the `/= 4` loop, the value is positive whenever the original
input was, and always below `2^29`. -/
theorem invSqrtNormalize_fst_bounds (input shift : Int) :
    (0 < input → 0 < (invSqrtNormalize input shift).1) ∧
      (invSqrtNormalize input shift).1 < 2 ^ 29 :=
  ⟨fun h => invSqrtNormalizeAux_fst_pos _ _ _ h,
    invSqrtNormalizeAux_fst_lt _ _ _ le_rfl⟩

theorem log2Aux_eq (f : Nat) :
    ∀ n : Nat, n ≤ f → log2Aux f n = Nat.log2 n := by
  induction f using Nat.strong_induction_on with
  | _ f ih =>
    intro n hn
    cases f with
    | zero =>
      have h0 : n = 0 := by omega
      subst h0
      rw [Nat.log2]
      decide
    | succ f =>
      show (if 2 ≤ n then log2Aux f (n / 2) + 1 else 0) = Nat.log2 n
      rw [Nat.log2]
      by_cases h2 : 2 ≤ n
      · rw [if_pos h2, if_pos h2, ih f (by omega) (n / 2) (by omega)]
      · rw [if_neg h2, if_neg h2]

theorem floorLog2_eq (n : Nat) : floorLog2 n = Nat.log2 n :=
  log2Aux_eq n n le_rfl

theorem invSqrt_window_nat (N : Nat) (h0 : 0 < N) (h1 : N < 2 ^ 29) :
    2 ^ 27 ≤ N * 2 ^ (2 * ((30 - Nat.log2 N) / 2 - 1)) ∧
      N * 2 ^ (2 * ((30 - Nat.log2 N) / 2 - 1)) < 2 ^ 29 := by
  have hb : Nat.log2 N ≤ 28 := by
    have := (Nat.log2_lt (by omega)).mpr h1
    omega
  have hlow : 2 ^ Nat.log2 N ≤ N := Nat.log2_self_le (by omega)
  have hhigh : N < 2 ^ (Nat.log2 N + 1) := Nat.lt_log2_self
  set b := Nat.log2 N with hbdef
  rcases Nat.even_or_odd b with ⟨m, hm⟩ | ⟨m, hm⟩
  · have hk : 2 * ((30 - b) / 2 - 1) = 28 - b := by omega
    have e1 : (2 : Nat) ^ 28 = 2 ^ b * 2 ^ (28 - b) := by
      rw [← pow_add]
      congr 1
      omega
    have e2 : (2 : Nat) ^ 29 = 2 ^ (b + 1) * 2 ^ (28 - b) := by
      rw [← pow_add]
      congr 1
      omega
    rw [hk]
    constructor
    · calc (2 : Nat) ^ 27 ≤ 2 ^ 28 := by norm_num
        _ = 2 ^ b * 2 ^ (28 - b) := e1
        _ ≤ N * 2 ^ (28 - b) := Nat.mul_le_mul_right _ hlow
    · calc N * 2 ^ (28 - b) < 2 ^ (b + 1) * 2 ^ (28 - b) :=
          (Nat.mul_lt_mul_right (pow_pos (by norm_num) _)).mpr hhigh
        _ = 2 ^ 29 := e2.symm
  · have hk : 2 * ((30 - b) / 2 - 1) = 27 - b := by omega
    have e1 : (2 : Nat) ^ 27 = 2 ^ b * 2 ^ (27 - b) := by
      rw [← pow_add]
      congr 1
      omega
    have e2 : (2 : Nat) ^ 28 = 2 ^ (b + 1) * 2 ^ (27 - b) := by
      rw [← pow_add]
      congr 1
      omega
    rw [hk]
    constructor
    · calc (2 : Nat) ^ 27 = 2 ^ b * 2 ^ (27 - b) := e1
        _ ≤ N * 2 ^ (27 - b) := Nat.mul_le_mul_right _ hlow
    · calc N * 2 ^ (27 - b) < 2 ^ (b + 1) * 2 ^ (27 - b) :=
          (Nat.mul_lt_mul_right (pow_pos (by norm_num) _)).mpr hhigh
        _ = 2 ^ 28 := e2.symm
        _ < 2 ^ 29 := by norm_num

/-- The pair-shift normalization lands every value of `(0, 2^29)` in the
window `[2^27, 2^29)` checked by the DCHECKs of lines 1192-1193. -/
theorem invSqrt_window (n : Int) (h0 : 0 < n) (h1 : n < 2 ^ 29) :
    2 ^ 27 ≤ n * 2 ^ (2 * ((clz32 n - 1) / 2 - 1)).toNat ∧
      n * 2 ^ (2 * ((clz32 n - 1) / 2 - 1)).toNat < 2 ^ 29 := by
  have hb : Nat.log2 n.toNat ≤ 28 := by
    have := (Nat.log2_lt (by omega)).mpr (show n.toNat < 2 ^ 29 by omega)
    omega
  have hk : (2 * ((clz32 n - 1) / 2 - 1)).toNat =
      2 * ((30 - Nat.log2 n.toNat) / 2 - 1) := by
    unfold clz32
    rw [floorLog2_eq]
    omega
  obtain ⟨w1, w2⟩ := invSqrt_window_nat n.toNat (by omega) (by omega)
  rw [hk, show n = ((n.toNat : Int)) from (Int.toNat_of_nonneg h0.le).symm]
  constructor
  · exact_mod_cast w1
  · exact_mod_cast w2

/-- C9: `GetInvSqrtQuantizedMultiplier` hits its fatal precondition check
exactly on non-positive inputs: for `input ≤ 0` the checked variant fails
(the `DCHECK_GT(input, 0)` fires), and for every strictly positive input
all three DCHECKs pass and the function completes with its normal
result. -/
theorem claim_C9_invsqrt_precondition (input : Int) :
    (input ≤ 0 → GetInvSqrtQuantizedMultiplierChecked input = none) ∧
    (0 < input → GetInvSqrtQuantizedMultiplierChecked input =
      some (GetInvSqrtQuantizedMultiplier input)) := by
  constructor
  · intro h
    have hnorm : invSqrtNormalize input 11 = (input, 11) := by
      rw [invSqrtNormalize_eq, if_neg (by omega)]
    unfold GetInvSqrtQuantizedMultiplierChecked
    rw [hnorm, if_neg (by simp; omega)]
  · intro h
    have hpos : 0 < (invSqrtNormalize input 11).1 :=
      (invSqrtNormalize_fst_bounds input 11).1 h
    have hlt : (invSqrtNormalize input 11).1 < 2 ^ 29 :=
      (invSqrtNormalize_fst_bounds input 11).2
    obtain ⟨w1, w2⟩ := invSqrt_window _ hpos hlt
    unfold GetInvSqrtQuantizedMultiplierChecked
    rw [if_pos ⟨hpos, w1, w2⟩]

/-- Witness for C9: at input 5 the checked function completes; at input
-3 it fails its precondition. -/
theorem claim_C9_invsqrt_precondition_witness :
    ((-3 : Int) ≤ 0 ∧ GetInvSqrtQuantizedMultiplierChecked (-3) = none) ∧
    ((0 : Int) < 5 ∧ GetInvSqrtQuantizedMultiplierChecked 5 =
      some (GetInvSqrtQuantizedMultiplier 5)) :=
  ⟨⟨by norm_num, (claim_C9_invsqrt_precondition (-3)).1 (by norm_num)⟩,
    ⟨by norm_num, (claim_C9_invsqrt_precondition 5).2 (by norm_num)⟩⟩

/-- C3, counterexample: at input `2^28` the source function's result
differs from the pipeline that iterates the recurrence as the claim words
it (`x = x*(1.5 - 0.5*input*x^3)`, transliterated into the same
fixed-point primitives).  The code computes
`x = 1.5*x - 0.5*input*x^3`, which is `x*(1.5 - 0.5*input*x^2)`, not
`x*(1.5 - 0.5*input*x^3)`. -/
theorem claim_C3_invsqrt_counterexample :
    GetInvSqrtQuantizedMultiplier 268435456 ≠
      GetInvSqrtQuantizedMultiplierClaimRecurrence 268435456 := by
  decide

/-- C3, amended: `GetInvSqrtQuantizedMultiplier` normalizes the input
into the exponent window (tracking the shifts in the output shift), runs
exactly 5 fixed-point Newton-Raphson iterations of
`x = 1.5*x - 0.5*input*x^3` (equivalently `x*(1.5 - 0.5*input*x^2)`)
starting from `x = 1`, multiplies the result by `sqrt(2)/2`, and returns
the resulting (inv_sqrt_multiplier, shift) pair. -/
theorem claim_C3_invsqrt_algorithm (input : Int) :
    GetInvSqrtQuantizedMultiplier input =
      specInvSqrtFinalize
        ((specInvSqrtNRStep (specInvSqrtNormalize input).1)^[5] (2 ^ 28))
        (specInvSqrtNormalize input).2 := by
  rfl

/-- The scatter range of the float AveragePool inverts the pooling
receptive field: input position `pos` projects onto output position
`out_pos` exactly when `pos` lies inside the window anchored at
`out_pos * stride - pad`. -/
theorem avgPoolScatterCond_iff (stride pad kernel out_extent pos out_pos : Int)
    (hs : 0 < stride) (h0 : 0 ≤ out_pos) (hlt : out_pos < out_extent) :
    avgPoolScatterCond stride pad kernel out_extent pos out_pos ↔
      (out_pos * stride - pad ≤ pos ∧
        pos < out_pos * stride - pad + kernel) := by
  unfold avgPoolScatterCond
  simp only [lt_min_iff]
  by_cases hk : pos + pad < kernel
  · rw [if_pos hk]
    constructor
    · rintro ⟨h1, h2, h3⟩
      have hub : out_pos * stride ≤ pos + pad :=
        (Int.le_ediv_iff_mul_le hs).mp (by omega)
      have hnn : 0 ≤ out_pos * stride := mul_nonneg h0 hs.le
      constructor <;> linarith
    · rintro ⟨h1, h2⟩
      refine ⟨h0, ?_, hlt⟩
      have hub : out_pos * stride ≤ pos + pad := by linarith
      have := (Int.le_ediv_iff_mul_le hs).mpr hub
      omega
  · rw [if_neg hk]
    constructor
    · rintro ⟨h1, h2, h3⟩
      have hub : out_pos * stride ≤ pos + pad :=
        (Int.le_ediv_iff_mul_le hs).mp (by omega)
      have hlb : pos + pad - kernel < out_pos * stride :=
        (Int.ediv_lt_iff_lt_mul hs).mp (by omega)
      constructor <;> linarith
    · rintro ⟨h1, h2⟩
      have hub : out_pos * stride ≤ pos + pad := by linarith
      have hlb : pos + pad - kernel < out_pos * stride := by linarith
      have i1 := (Int.ediv_lt_iff_lt_mul hs).mpr hlb
      have i2 := (Int.le_ediv_iff_mul_le hs).mpr hub
      exact ⟨by omega, by omega, hlt⟩

/-- C4: for every valid output position, the float AveragePool divides
the accumulated window sum by the number of in-bounds input cells that
actually contribute to that window (not by `kwidth*kheight`), and the
8-bit AveragePool's `filter_count` divisor is exactly the number of
in-bounds filter positions of that output position. -/
theorem claim_C4_avgpool_true_coverage (ac : FusedActivationFunctionType)
    (input_data : Int → ℚ) (input_dims : Dims4)
    (stride pad_width pad_height kwidth kheight : Int) (output_dims : Dims4)
    (c ph pw b : Int)
    (hs : 0 < stride)
    (hph0 : 0 ≤ ph) (hphlt : ph < output_dims.sizes 2)
    (hpw0 : 0 ≤ pw) (hpwlt : pw < output_dims.sizes 1)
    (hx : max 0 (-(pw * stride - pad_width)) <
      min kwidth (input_dims.sizes 1 - (pw * stride - pad_width)))
    (hy : max 0 (-(ph * stride - pad_height)) <
      min kheight (input_dims.sizes 2 - (ph * stride - pad_height))) :
    (AveragePoolFloat ac input_data input_dims stride pad_width pad_height
        kwidth kheight output_dims c ph pw b =
      ActivationFunction ac
        ((∑ hw ∈ poolWindowCells (input_dims.sizes 2) (input_dims.sizes 1)
            stride pad_width pad_height kwidth kheight ph pw,
          input_data (((b * input_dims.sizes 2 + hw.1) * input_dims.sizes 1 +
            hw.2) * input_dims.sizes 0 + c)) /
          ((poolWindowCells (input_dims.sizes 2) (input_dims.sizes 1) stride
            pad_width pad_height kwidth kheight ph pw).card : ℚ))) ∧
    avgPoolU8FilterCount input_dims stride pad_width pad_height kwidth
        kheight pw ph =
      ((poolFilterPositions input_dims stride pad_width pad_height kwidth
        kheight pw ph).card : Int) := by
  constructor
  · unfold AveragePoolFloat poolWindowCells
    have hsum : ∀ (v : Int → Int → ℚ),
        (∑ h ∈ Finset.Ico 0 (input_dims.sizes 2),
          ∑ w ∈ Finset.Ico 0 (input_dims.sizes 1),
            if avgPoolScatterCond stride pad_height kheight
                (output_dims.sizes 2) h ph ∧
                avgPoolScatterCond stride pad_width kwidth
                  (output_dims.sizes 1) w pw
            then v h w else 0) =
        ∑ hw ∈ (Finset.Ico 0 (input_dims.sizes 2) ×ˢ
            Finset.Ico 0 (input_dims.sizes 1)).filter
            (fun hw =>
              (ph * stride - pad_height ≤ hw.1 ∧
                hw.1 < ph * stride - pad_height + kheight) ∧
              (pw * stride - pad_width ≤ hw.2 ∧
                hw.2 < pw * stride - pad_width + kwidth)),
          v hw.1 hw.2 := by
      intro v
      rw [← Finset.sum_product', Finset.sum_filter]
      apply Finset.sum_congr rfl
      intro p hp
      obtain ⟨hp1, hp2⟩ := Finset.mem_product.mp hp
      rw [Finset.mem_Ico] at hp1 hp2
      have e1 := avgPoolScatterCond_iff stride pad_height kheight
        (output_dims.sizes 2) p.1 ph hs hph0 hphlt
      have e2 := avgPoolScatterCond_iff stride pad_width kwidth
        (output_dims.sizes 1) p.2 pw hs hpw0 hpwlt
      exact if_congr (and_congr e1 e2) rfl rfl
    have hacc : (∑ h ∈ Finset.Ico 0 (input_dims.sizes 2),
        ∑ w ∈ Finset.Ico 0 (input_dims.sizes 1),
          if avgPoolScatterCond stride pad_height kheight
              (output_dims.sizes 2) h ph ∧
              avgPoolScatterCond stride pad_width kwidth
                (output_dims.sizes 1) w pw
          then input_data (((b * input_dims.sizes 2 + h) *
            input_dims.sizes 1 + w) * input_dims.sizes 0 + c)
          else 0) =
        ∑ hw ∈ (Finset.Ico 0 (input_dims.sizes 2) ×ˢ
            Finset.Ico 0 (input_dims.sizes 1)).filter
            (fun hw =>
              (ph * stride - pad_height ≤ hw.1 ∧
                hw.1 < ph * stride - pad_height + kheight) ∧
              (pw * stride - pad_width ≤ hw.2 ∧
                hw.2 < pw * stride - pad_width + kwidth)),
          input_data (((b * input_dims.sizes 2 + hw.1) * input_dims.sizes 1 +
            hw.2) * input_dims.sizes 0 + c) :=
      hsum (fun h w => input_data (((b * input_dims.sizes 2 + h) *
        input_dims.sizes 1 + w) * input_dims.sizes 0 + c))
    have hcnt : (∑ h ∈ Finset.Ico 0 (input_dims.sizes 2),
        ∑ w ∈ Finset.Ico 0 (input_dims.sizes 1),
          if avgPoolScatterCond stride pad_height kheight
              (output_dims.sizes 2) h ph ∧
              avgPoolScatterCond stride pad_width kwidth
                (output_dims.sizes 1) w pw
          then (1 : ℚ) else 0) =
        ∑ _hw ∈ (Finset.Ico 0 (input_dims.sizes 2) ×ˢ
            Finset.Ico 0 (input_dims.sizes 1)).filter
            (fun hw =>
              (ph * stride - pad_height ≤ hw.1 ∧
                hw.1 < ph * stride - pad_height + kheight) ∧
              (pw * stride - pad_width ≤ hw.2 ∧
                hw.2 < pw * stride - pad_width + kwidth)),
          (1 : ℚ) :=
      hsum (fun _ _ => 1)
    rw [hacc, hcnt]
    congr 1
    rw [Finset.sum_const, nsmul_eq_mul, mul_one]
  · unfold avgPoolU8FilterCount poolFilterPositions
    set iyo := ph * stride - pad_height with hiyo
    set ixo := pw * stride - pad_width with hixo
    have hset : (Finset.Ico 0 kheight ×ˢ Finset.Ico 0 kwidth).filter
        (fun p => (0 ≤ iyo + p.1 ∧ iyo + p.1 < input_dims.sizes 2) ∧
          (0 ≤ ixo + p.2 ∧ ixo + p.2 < input_dims.sizes 1)) =
        Finset.Ico (max 0 (-iyo))
            (min kheight (input_dims.sizes 2 - iyo)) ×ˢ
          Finset.Ico (max 0 (-ixo))
            (min kwidth (input_dims.sizes 1 - ixo)) := by
      ext p
      simp only [Finset.mem_filter, Finset.mem_product, Finset.mem_Ico]
      omega
    rw [hset, Finset.card_product, Int.card_Ico, Int.card_Ico]
    have hA : (0 : Int) ≤
        min kheight (input_dims.sizes 2 - iyo) - max 0 (-iyo) := by omega
    have hB : (0 : Int) ≤
        min kwidth (input_dims.sizes 1 - ixo) - max 0 (-ixo) := by omega
    push_cast [Int.toNat_of_nonneg hA, Int.toNat_of_nonneg hB]
    ring

/-- Witness for C4 at the corner of a 1-padded 3×3 average pool over a
4×4 single-channel image with stride 1: the corner window holds 4
in-bounds cells, so the float path divides by 4, not 9. -/
theorem claim_C4_avgpool_true_coverage_witness :
    ((0 : Int) < 1 ∧ (0 : Int) ≤ 0 ∧ (0 : Int) < 4 ∧
      max 0 (-((0 : Int) * 1 - 1)) < min 3 (4 - ((0 : Int) * 1 - 1))) ∧
    (poolWindowCells 4 4 1 1 1 3 3 0 0).card = 4 ∧
    AveragePoolFloat .kNone (fun i => (i : ℚ))
        (Dims4.mk ![1, 4, 4, 1] ![1, 1, 4, 16]) 1 1 1 3 3
        (Dims4.mk ![1, 4, 4, 1] ![1, 1, 4, 16]) 0 0 0 0 =
      ActivationFunction .kNone
        ((∑ hw ∈ poolWindowCells 4 4 1 1 1 3 3 0 0,
          (((((0 : Int) * 4 + hw.1) * 4 + hw.2) * 1 + 0 : Int) : ℚ)) /
          ((poolWindowCells 4 4 1 1 1 3 3 0 0).card : ℚ)) :=
  ⟨⟨by norm_num, by norm_num, by norm_num, by decide⟩, by decide,
    (claim_C4_avgpool_true_coverage .kNone (fun i => (i : ℚ))
      (Dims4.mk ![1, 4, 4, 1] ![1, 1, 4, 16]) 1 1 1 3 3
      (Dims4.mk ![1, 4, 4, 1] ![1, 1, 4, 16]) 0 0 0 0
      (by norm_num) (by norm_num) (by decide) (by norm_num) (by decide)
      (by decide) (by decide)).1⟩

/-- Integer division with the added half-divisor is round-to-nearest with
ties rounded upward: `(S + fc/2) / fc = ⌊(2S + fc) / (2 fc)⌋`. -/
theorem round_half_up_tdiv (S fc : Int) (hfc : 0 < fc) (hS : 0 ≤ S) :
    (S + fc.tdiv 2).tdiv fc = (2 * S + fc) / (2 * fc) := by
  have h2 : fc.tdiv 2 = fc / 2 := Int.tdiv_eq_ediv hfc.le (by norm_num)
  rw [h2, Int.tdiv_eq_ediv (by omega) hfc.le]
  set q := (S + fc / 2) / fc with hq
  have h1 : fc * q + (S + fc / 2) % fc = S + fc / 2 := Int.ediv_add_emod _ _
  have hr0 : 0 ≤ (S + fc / 2) % fc := Int.emod_nonneg _ (by omega)
  have hr1 : (S + fc / 2) % fc < fc := Int.emod_lt_of_pos _ hfc
  have hhalf1 : 2 * (fc / 2) ≤ fc := by omega
  have hhalf2 : fc ≤ 2 * (fc / 2) + 1 := by omega
  have hle : q ≤ (2 * S + fc) / (2 * fc) := by
    rw [Int.le_ediv_iff_mul_le (by omega)]
    calc q * (2 * fc) = 2 * (fc * q) := by ring
      _ ≤ 2 * (S + fc / 2) := by linarith
      _ ≤ 2 * S + fc := by linarith
  have hge : (2 * S + fc) / (2 * fc) ≤ q := by
    have hlt : (2 * S + fc) / (2 * fc) < q + 1 := by
      rw [Int.ediv_lt_iff_lt_mul (by omega)]
      have e : S + fc / 2 = fc * q + (S + fc / 2) % fc := by linarith
      calc 2 * S + fc ≤ 2 * (S + fc / 2) + 1 := by linarith
        _ = 2 * (fc * q) + 2 * ((S + fc / 2) % fc) + 1 := by linarith
        _ ≤ 2 * (fc * q) + 2 * (fc - 1) + 1 := by linarith
        _ = (q + 1) * (2 * fc) - 1 := by ring
        _ < (q + 1) * (2 * fc) := by linarith
    exact Int.lt_add_one_iff.mp hlt
  exact le_antisymm hle hge

/-- C10: under the in-range conditions the kernel relies on (nonempty
window, window sum fitting the 16-bit accumulator, activation bounds
inside [0, 255]), each 8-bit AveragePool output channel value is the exact
integer `(acc + filter_count/2) / filter_count` — round-to-nearest
division of the window sum by the in-bounds count, ties rounded upward,
equal to `⌊(2*acc + filter_count) / (2*filter_count)⌋` and not plain
truncation — clamped to `[output_activation_min, output_activation_max]`
before the cast to uint8. -/
theorem claim_C10_avgpool_u8_rounding (input_data : Int → Int)
    (input_dims : Dims4)
    (stride pad_width pad_height filter_width filter_height
      amin amax c out_x out_y batch : Int)
    (hx : max 0 (-(out_x * stride - pad_width)) <
      min filter_width (input_dims.sizes 1 - (out_x * stride - pad_width)))
    (hy : max 0 (-(out_y * stride - pad_height)) <
      min filter_height (input_dims.sizes 2 - (out_y * stride - pad_height)))
    (hS0 : 0 ≤ avgPoolU8Acc input_data input_dims stride pad_width pad_height
      filter_width filter_height c out_x out_y batch)
    (hSb : avgPoolU8Acc input_data input_dims stride pad_width pad_height
        filter_width filter_height c out_x out_y batch +
      (avgPoolU8FilterCount input_dims stride pad_width pad_height
        filter_width filter_height out_x out_y).tdiv 2 < 65536)
    (ha0 : 0 ≤ amin) (ha1 : amin ≤ amax) (ha2 : amax ≤ 255) :
    AveragePoolUint8 input_data input_dims stride pad_width pad_height
        filter_width filter_height amin amax c out_x out_y batch =
      min amax (max amin
        ((avgPoolU8Acc input_data input_dims stride pad_width pad_height
            filter_width filter_height c out_x out_y batch +
          (avgPoolU8FilterCount input_dims stride pad_width pad_height
            filter_width filter_height out_x out_y).tdiv 2).tdiv
          (avgPoolU8FilterCount input_dims stride pad_width pad_height
            filter_width filter_height out_x out_y))) ∧
    (avgPoolU8Acc input_data input_dims stride pad_width pad_height
        filter_width filter_height c out_x out_y batch +
      (avgPoolU8FilterCount input_dims stride pad_width pad_height
        filter_width filter_height out_x out_y).tdiv 2).tdiv
      (avgPoolU8FilterCount input_dims stride pad_width pad_height
        filter_width filter_height out_x out_y) =
    (2 * avgPoolU8Acc input_data input_dims stride pad_width pad_height
        filter_width filter_height c out_x out_y batch +
      avgPoolU8FilterCount input_dims stride pad_width pad_height
        filter_width filter_height out_x out_y) /
    (2 * avgPoolU8FilterCount input_dims stride pad_width pad_height
      filter_width filter_height out_x out_y) := by
  set S := avgPoolU8Acc input_data input_dims stride pad_width pad_height
    filter_width filter_height c out_x out_y batch with hSdef
  set fc := avgPoolU8FilterCount input_dims stride pad_width pad_height
    filter_width filter_height out_x out_y with hfcdef
  have hxp : 0 < min filter_width
      (input_dims.sizes 1 - (out_x * stride - pad_width)) -
      max 0 (-(out_x * stride - pad_width)) := by omega
  have hyp : 0 < min filter_height
      (input_dims.sizes 2 - (out_y * stride - pad_height)) -
      max 0 (-(out_y * stride - pad_height)) := by omega
  have hfc : 0 < fc := by
    rw [hfcdef]
    exact mul_pos hxp hyp
  have htd : fc.tdiv 2 = fc / 2 := Int.tdiv_eq_ediv hfc.le (by norm_num)
  have htd0 : 0 ≤ fc.tdiv 2 := by rw [htd]; omega
  have htdle : fc.tdiv 2 ≤ fc := by rw [htd]; omega
  have hS65536 : S < 65536 := by omega
  have key : AveragePoolUint8 input_data input_dims stride pad_width
      pad_height filter_width filter_height amin amax c out_x out_y batch =
      min (max ((S % 65536 + fc.tdiv 2).tdiv fc % 65536) (amin % 65536))
        (amax % 65536) % 256 := rfl
  have e1 : S % 65536 = S := Int.emod_eq_of_lt hS0 (by omega)
  have ea : 0 ≤ (S + fc.tdiv 2).tdiv fc := by
    rw [htd, Int.tdiv_eq_ediv (by omega) hfc.le]
    exact Int.ediv_nonneg (by omega) hfc.le
  have eb : (S + fc.tdiv 2).tdiv fc < 65536 := by
    rw [htd, Int.tdiv_eq_ediv (by omega) hfc.le]
    calc (S + fc / 2) / fc ≤ S + fc / 2 := Int.ediv_le_self _ (by omega)
      _ < 65536 := by omega
  have e2 : (S + fc.tdiv 2).tdiv fc % 65536 = (S + fc.tdiv 2).tdiv fc :=
    Int.emod_eq_of_lt ea eb
  have e3 : amin % 65536 = amin := Int.emod_eq_of_lt ha0 (by omega)
  have e4 : amax % 65536 = amax := Int.emod_eq_of_lt (by omega) (by omega)
  have hr0 : 0 ≤ min (max ((S + fc.tdiv 2).tdiv fc) amin) amax :=
    le_min (le_trans ha0 (le_max_right _ _)) (by omega)
  have hr1 : min (max ((S + fc.tdiv 2).tdiv fc) amin) amax ≤ 255 :=
    le_trans (min_le_right _ _) ha2
  have e5 : min (max ((S + fc.tdiv 2).tdiv fc) amin) amax % 256 =
      min (max ((S + fc.tdiv 2).tdiv fc) amin) amax :=
    Int.emod_eq_of_lt hr0 (by omega)
  constructor
  · rw [key, e1, e2, e3, e4, e5, min_comm (max ((S + fc.tdiv 2).tdiv fc) amin)
      amax, max_comm ((S + fc.tdiv 2).tdiv fc) amin]
  · exact round_half_up_tdiv S fc hfc hS0

/-- Witness for C10: constant-10 image, corner of a 1-padded 3×3 window
(4 in-bounds cells), window sum 40, output `(40 + 2)/4 = 10`. -/
theorem claim_C10_avgpool_u8_rounding_witness :
    (max 0 (-((0 : Int) * 1 - 1)) < min 3 (4 - ((0 : Int) * 1 - 1))) ∧
    AveragePoolUint8 (fun _ => 10) (Dims4.mk ![1, 4, 4, 1] ![1, 1, 4, 16])
        1 1 1 3 3 0 255 0 0 0 0 =
      min 255 (max 0
        ((avgPoolU8Acc (fun _ => 10) (Dims4.mk ![1, 4, 4, 1] ![1, 1, 4, 16])
            1 1 1 3 3 0 0 0 0 +
          (avgPoolU8FilterCount (Dims4.mk ![1, 4, 4, 1] ![1, 1, 4, 16])
            1 1 1 3 3 0 0).tdiv 2).tdiv
          (avgPoolU8FilterCount (Dims4.mk ![1, 4, 4, 1] ![1, 1, 4, 16])
            1 1 1 3 3 0 0))) :=
  ⟨by decide,
    (claim_C10_avgpool_u8_rounding (fun _ => 10)
      (Dims4.mk ![1, 4, 4, 1] ![1, 1, 4, 16]) 1 1 1 3 3 0 255 0 0 0 0
      (by decide) (by decide) (by decide) (by decide)
      (by norm_num) (by norm_num) (by norm_num)).1⟩

/-- For a 1×1 kernel with stride 1 and no padding, the im2col
rearrangement of a packed input into a conv buffer of the same extents is
the identity on every nonnegative flat index. -/
theorem im2col_one_by_one_identity {α : Type} (input_data : Int → α)
    (input_dims im2col_dims : Dims4) (byte_zero : α)
    (hpacked : IsPackedWithoutStrides input_dims)
    (h0 : im2col_dims.sizes 0 = input_dims.sizes 0)
    (h1 : im2col_dims.sizes 1 = input_dims.sizes 1)
    (h2 : im2col_dims.sizes 2 = input_dims.sizes 2)
    (hd : 0 < input_dims.sizes 0) (hw : 0 < input_dims.sizes 1)
    (hh : 0 < input_dims.sizes 2) (idx : Int) (hidx : 0 ≤ idx) :
    Im2col input_data input_dims 1 0 0 1 1 byte_zero im2col_dims idx =
      input_data idx := by
  obtain ⟨hs0, hs1, hs2, hs3⟩ := hpacked
  simp only [Im2col, Im2colElem, h0, h1, h2]
  set e := idx % input_dims.sizes 0 with he
  set q1 := idx / input_dims.sizes 0 with hq1
  set w := q1 % input_dims.sizes 1 with hwdef
  set q2 := q1 / input_dims.sizes 1 with hq2
  set h := q2 % input_dims.sizes 2 with hhdef
  set b := q2 / input_dims.sizes 2 with hbdef
  have he0 : 0 ≤ e := he ▸ Int.emod_nonneg idx (ne_of_gt hd)
  have heD : e < input_dims.sizes 0 := he ▸ Int.emod_lt_of_pos idx hd
  have hq10 : 0 ≤ q1 := hq1 ▸ Int.ediv_nonneg hidx hd.le
  have hw0 : 0 ≤ w := hwdef ▸ Int.emod_nonneg q1 (ne_of_gt hw)
  have hwW : w < input_dims.sizes 1 := hwdef ▸ Int.emod_lt_of_pos q1 hw
  have hh0 : 0 ≤ h := hhdef ▸ Int.emod_nonneg q2 (ne_of_gt hh)
  have hhH : h < input_dims.sizes 2 := hhdef ▸ Int.emod_lt_of_pos q2 hh
  have hediv0 : e / input_dims.sizes 0 = 0 := Int.ediv_eq_zero_of_lt he0 heD
  have hkr : e / input_dims.sizes 0 / 1 = 0 := by rw [hediv0]; rfl
  have hkc : e / input_dims.sizes 0 % 1 = 0 := Int.emod_one _
  have hdd : e % input_dims.sizes 0 = e := Int.emod_eq_of_lt he0 heD
  rw [hkr, hkc, hdd]
  rw [if_pos (by constructor <;> [omega; constructor <;> [omega;
    constructor <;> omega]])]
  congr 1
  have hA : input_dims.sizes 0 * q1 + e = idx := Int.ediv_add_emod idx _
  have hB : input_dims.sizes 1 * q2 + w = q1 := Int.ediv_add_emod q1 _
  have hC : input_dims.sizes 2 * b + h = q2 := Int.ediv_add_emod q2 _
  rw [Offset, hs3, hs2, hs1, hs0]
  linear_combination hA + input_dims.sizes 0 * hB +
    input_dims.sizes 0 * input_dims.sizes 1 * hC

/-- C1: with a 1×1 kernel and stride 1 (and the zero padding such a
configuration implies), both the float and the quantized 8-bit Conv
produce output identical to the pipeline that always runs the im2col
rearrangement first and feeds the rearranged buffer to the same
matrix-multiply-plus-output-stage; skipping im2col on that path has no
semantic effect. -/
theorem claim_C1_conv_1x1_im2col_skip (ac : FusedActivationFunctionType)
    (input_dataF : Int → ℚ) (filter_dataF : Int → ℚ) (bias_dataF : Int → ℚ)
    (input_data : Int → Int) (filter_data : Int → Int)
    (bias_data : Int → Int)
    (input_dims filter_dims bias_dims output_dims im2col_dims : Dims4)
    (stride pad_width pad_height : Int)
    (input_offset filter_offset : Int)
    (output_offset output_multiplier output_shift : Int)
    (output_activation_min output_activation_max : Int)
    (hs : stride = 1) (hfw : filter_dims.sizes 1 = 1)
    (hfh : filter_dims.sizes 2 = 1)
    (hpw : pad_width = 0) (hph : pad_height = 0)
    (hpacked : IsPackedWithoutStrides input_dims)
    (h0 : im2col_dims.sizes 0 = input_dims.sizes 0)
    (h1 : im2col_dims.sizes 1 = input_dims.sizes 1)
    (h2 : im2col_dims.sizes 2 = input_dims.sizes 2)
    (hd : 0 < input_dims.sizes 0) (hw : 0 < input_dims.sizes 1)
    (hh : 0 < input_dims.sizes 2) (hor : 0 < output_dims.sizes 0)
    (idx : Int) (hidx : 0 ≤ idx) :
    ConvFloat ac input_dataF input_dims filter_dataF filter_dims bias_dataF
        bias_dims stride pad_width pad_height output_dims im2col_dims idx =
      ConvFloatAlwaysIm2col ac input_dataF input_dims filter_dataF
        filter_dims bias_dataF bias_dims stride pad_width pad_height
        output_dims im2col_dims idx ∧
    ConvUint8 ac input_data input_dims input_offset filter_data filter_dims
        filter_offset bias_data stride pad_width pad_height output_offset
        output_multiplier output_shift output_activation_min
        output_activation_max output_dims im2col_dims idx =
      ConvUint8AlwaysIm2col ac input_data input_dims input_offset
        filter_data filter_dims filter_offset bias_data stride pad_width
        pad_height output_offset output_multiplier output_shift
        output_activation_min output_activation_max output_dims im2col_dims
        idx := by
  subst hs hpw hph
  have hneed : ¬ ((1 : Int) ≠ 1 ∨ filter_dims.sizes 1 ≠ 1 ∨
      filter_dims.sizes 2 ≠ 1) := by
    simp [hfw, hfh]
  have hread : ∀ r : Int, 0 ≤ r →
      0 ≤ (idx / output_dims.sizes 0) * input_dims.sizes 0 + r := by
    intro r hr
    have hj : 0 ≤ idx / output_dims.sizes 0 := Int.ediv_nonneg hidx hor.le
    have := mul_nonneg hj hd.le
    linarith
  have hgemmF : ∀ rows1 rows2 : Int, rows1 = input_dims.sizes 0 →
      rows2 = input_dims.sizes 0 →
      ConvGemmOutput input_dataF rows1 filter_dataF filter_dims
        (output_dims.sizes 0) idx =
      ConvGemmOutput (Im2col input_dataF input_dims 1 0 0
        (filter_dims.sizes 2) (filter_dims.sizes 1) 0 im2col_dims) rows2
        filter_dataF filter_dims (output_dims.sizes 0) idx := by
    intro rows1 rows2 e1 e2
    subst e1 e2
    unfold ConvGemmOutput
    apply Finset.sum_congr rfl
    intro r hr
    rw [Finset.mem_Ico] at hr
    congr 1
    rw [hfw, hfh,
      im2col_one_by_one_identity input_dataF input_dims im2col_dims 0
        ⟨hpacked.1, hpacked.2.1, hpacked.2.2.1, hpacked.2.2.2⟩ h0 h1 h2
        hd hw hh _ (hread r hr.1)]
  have hgemmU : ConvUint8GemmOutput ac input_data (input_dims.sizes 0)
        input_offset filter_data filter_offset
        (filter_dims.sizes 0 * filter_dims.sizes 1 * filter_dims.sizes 2)
        bias_data output_offset output_multiplier output_shift
        output_activation_min output_activation_max (output_dims.sizes 0)
        idx =
      ConvUint8GemmOutput ac (Im2col input_data input_dims 1 0 0
        (filter_dims.sizes 2) (filter_dims.sizes 1) (-input_offset)
        im2col_dims) (im2col_dims.sizes 0) input_offset filter_data
        filter_offset
        (filter_dims.sizes 0 * filter_dims.sizes 1 * filter_dims.sizes 2)
        bias_data output_offset output_multiplier output_shift
        output_activation_min output_activation_max (output_dims.sizes 0)
        idx := by
    rw [h0]
    unfold ConvUint8GemmOutput
    have hsum : (∑ r ∈ Finset.Ico 0
        (filter_dims.sizes 0 * filter_dims.sizes 1 * filter_dims.sizes 2),
        (filter_data ((idx % output_dims.sizes 0) *
          (filter_dims.sizes 0 * filter_dims.sizes 1 *
            filter_dims.sizes 2) + r) + filter_offset) *
          (input_data ((idx / output_dims.sizes 0) * input_dims.sizes 0 +
            r) + input_offset)) =
        ∑ r ∈ Finset.Ico 0
          (filter_dims.sizes 0 * filter_dims.sizes 1 * filter_dims.sizes 2),
          (filter_data ((idx % output_dims.sizes 0) *
            (filter_dims.sizes 0 * filter_dims.sizes 1 *
              filter_dims.sizes 2) + r) + filter_offset) *
            (Im2col input_data input_dims 1 0 0 (filter_dims.sizes 2)
              (filter_dims.sizes 1) (-input_offset) im2col_dims
              ((idx / output_dims.sizes 0) * input_dims.sizes 0 + r) +
              input_offset) := by
      apply Finset.sum_congr rfl
      intro r hr
      rw [Finset.mem_Ico] at hr
      congr 2
      rw [hfw, hfh,
        im2col_one_by_one_identity input_data input_dims im2col_dims
          (-input_offset) ⟨hpacked.1, hpacked.2.1, hpacked.2.2.1,
            hpacked.2.2.2⟩ h0 h1 h2 hd hw hh _ (hread r hr.1)]
    rw [hsum]
  constructor
  · unfold ConvFloat ConvFloatAlwaysIm2col
    rw [if_neg hneed, if_neg hneed]
    congr 1
    congr 1
    exact hgemmF (input_dims.sizes 0) (im2col_dims.sizes 0) rfl h0
  · unfold ConvUint8 ConvUint8AlwaysIm2col
    rw [if_neg hneed, if_neg hneed]
    exact hgemmU

/-- Witness for C1: a 1×1 kernel, stride-1, depth-2 → depth-3 convolution
over a packed 2×1 image, float and quantized, at output element 1. -/
theorem claim_C1_conv_1x1_im2col_skip_witness :
    ((1 : Int) = 1 ∧ (Dims4.mk ![2, 1, 1, 3] ![1, 2, 2, 2]).sizes 1 = 1 ∧
      IsPackedWithoutStrides (Dims4.mk ![2, 2, 1, 1] ![1, 2, 4, 4])) ∧
    ConvFloat .kNone (fun i => (i : ℚ)) (Dims4.mk ![2, 2, 1, 1] ![1, 2, 4, 4])
        (fun i => (i : ℚ) + 1) (Dims4.mk ![2, 1, 1, 3] ![1, 2, 2, 2])
        (fun i => (i : ℚ)) (Dims4.mk ![3, 1, 1, 1] ![1, 3, 3, 3]) 1 0 0
        (Dims4.mk ![3, 2, 1, 1] ![1, 3, 6, 6])
        (Dims4.mk ![2, 2, 1, 1] ![1, 2, 4, 4]) 1 =
      ConvFloatAlwaysIm2col .kNone (fun i => (i : ℚ))
        (Dims4.mk ![2, 2, 1, 1] ![1, 2, 4, 4]) (fun i => (i : ℚ) + 1)
        (Dims4.mk ![2, 1, 1, 3] ![1, 2, 2, 2]) (fun i => (i : ℚ))
        (Dims4.mk ![3, 1, 1, 1] ![1, 3, 3, 3]) 1 0 0
        (Dims4.mk ![3, 2, 1, 1] ![1, 3, 6, 6])
        (Dims4.mk ![2, 2, 1, 1] ![1, 2, 4, 4]) 1 ∧
    ConvUint8 .kNone (fun i => i + 5) (Dims4.mk ![2, 2, 1, 1] ![1, 2, 4, 4])
        (-1) (fun i => i + 7) (Dims4.mk ![2, 1, 1, 3] ![1, 2, 2, 2]) (-2)
        (fun i => i) 1 0 0 3 1073741824 1 0 255
        (Dims4.mk ![3, 2, 1, 1] ![1, 3, 6, 6])
        (Dims4.mk ![2, 2, 1, 1] ![1, 2, 4, 4]) 1 =
      ConvUint8AlwaysIm2col .kNone (fun i => i + 5)
        (Dims4.mk ![2, 2, 1, 1] ![1, 2, 4, 4]) (-1) (fun i => i + 7)
        (Dims4.mk ![2, 1, 1, 3] ![1, 2, 2, 2]) (-2) (fun i => i) 1 0 0 3
        1073741824 1 0 255 (Dims4.mk ![3, 2, 1, 1] ![1, 3, 6, 6])
        (Dims4.mk ![2, 2, 1, 1] ![1, 2, 4, 4]) 1 := by
  have h := claim_C1_conv_1x1_im2col_skip .kNone (fun i => (i : ℚ))
    (fun i => (i : ℚ) + 1) (fun i => (i : ℚ)) (fun i => i + 5)
    (fun i => i + 7) (fun i => i) (Dims4.mk ![2, 2, 1, 1] ![1, 2, 4, 4])
    (Dims4.mk ![2, 1, 1, 3] ![1, 2, 2, 2])
    (Dims4.mk ![3, 1, 1, 1] ![1, 3, 3, 3])
    (Dims4.mk ![3, 2, 1, 1] ![1, 3, 6, 6])
    (Dims4.mk ![2, 2, 1, 1] ![1, 2, 4, 4]) 1 0 0 (-1) (-2) 3 1073741824 1
    0 255 rfl (by decide) (by decide) rfl rfl (by decide) (by decide)
    (by decide) (by decide) (by decide) (by decide) (by decide) (by decide)
    1 (by norm_num)
  exact ⟨⟨rfl, by decide, by decide⟩, h.1, h.2⟩

/-- C7: under the LstmCell preconditions (gate weights/bias depth exactly
4 times the output depth — the CHECKs of lines 1782-1788 — and output
buffers of that same depth), the cell splits the fully-connected gate
pre-activations into four equal-depth quarters in the fixed order input
gate, new input, forget gate, output gate, and writes
`output_state = sigmoid(input_gate)*tanh(new_input) +
sigmoid(forget_gate)*prev_state` and
`output_activ = sigmoid(output_gate)*tanh(output_state)`
element-wise. -/
theorem claim_C7_lstm_cell (sigmoid tanh_fn : ℚ → ℚ)
    (input_data : Int → ℚ) (input_dims : Dims4)
    (prev_activ_data : Int → ℚ) (prev_activ_dims : Dims4)
    (weights_data : Int → ℚ) (weights_dims : Dims4) (bias_data : Int → ℚ)
    (bias_dims : Dims4) (prev_state_data : Int → ℚ)
    (prev_state_dims : Dims4)
    (output_state_dims output_activ_dims activ_temp_dims : Dims4)
    (hgd : weights_dims.sizes 1 = 4 * prev_state_dims.sizes 0)
    (had : activ_temp_dims.sizes 0 = 4 * prev_state_dims.sizes 0)
    (hos : output_state_dims.sizes 0 = prev_state_dims.sizes 0)
    (hoa : output_activ_dims.sizes 0 = prev_state_dims.sizes 0)
    (idx : Int) :
    (LstmCell sigmoid tanh_fn input_data input_dims prev_activ_data
        prev_activ_dims weights_data weights_dims bias_data bias_dims
        prev_state_data prev_state_dims output_state_dims output_activ_dims
        activ_temp_dims).1 idx =
      sigmoid (lstmGatePreactivation input_data input_dims prev_activ_data
          prev_activ_dims weights_data weights_dims bias_data bias_dims
          activ_temp_dims (prev_state_dims.sizes 0) 0 idx) *
        tanh_fn (lstmGatePreactivation input_data input_dims prev_activ_data
          prev_activ_dims weights_data weights_dims bias_data bias_dims
          activ_temp_dims (prev_state_dims.sizes 0) 1 idx) +
      sigmoid (lstmGatePreactivation input_data input_dims prev_activ_data
          prev_activ_dims weights_data weights_dims bias_data bias_dims
          activ_temp_dims (prev_state_dims.sizes 0) 2 idx) *
        prev_state_data idx ∧
    (LstmCell sigmoid tanh_fn input_data input_dims prev_activ_data
        prev_activ_dims weights_data weights_dims bias_data bias_dims
        prev_state_data prev_state_dims output_state_dims output_activ_dims
        activ_temp_dims).2 idx =
      sigmoid (lstmGatePreactivation input_data input_dims prev_activ_data
          prev_activ_dims weights_data weights_dims bias_data bias_dims
          activ_temp_dims (prev_state_dims.sizes 0) 3 idx) *
        tanh_fn ((LstmCell sigmoid tanh_fn input_data input_dims
          prev_activ_data prev_activ_dims weights_data weights_dims
          bias_data bias_dims prev_state_data prev_state_dims
          output_state_dims output_activ_dims activ_temp_dims).1 idx) := by
  have hid : ∀ n d : Int, n / d * d + n % d = n := by
    intro n d
    rw [mul_comm]
    exact Int.ediv_add_emod n d
  constructor
  · simp only [LstmCell, lstmGatePreactivation, had, hos, hoa]
    rw [hid idx (prev_state_dims.sizes 0)]
  · simp only [LstmCell, lstmGatePreactivation, had, hos, hoa]
    rw [hid idx (prev_state_dims.sizes 0), hid idx (prev_state_dims.sizes 0)]

/-- Witness for C7 at a depth-1 cell (gate depth 4) with identity-like
activations. -/
theorem claim_C7_lstm_cell_witness :
    ((Dims4.mk ![2, 4, 1, 1] ![1, 2, 8, 8]).sizes 1 =
        4 * (Dims4.mk ![1, 1, 1, 1] ![1, 1, 1, 1]).sizes 0 ∧
      (Dims4.mk ![4, 1, 1, 1] ![1, 4, 4, 4]).sizes 0 =
        4 * (Dims4.mk ![1, 1, 1, 1] ![1, 1, 1, 1]).sizes 0) ∧
    (LstmCell (fun q => q) (fun q => q + 1) (fun i => (i : ℚ))
        (Dims4.mk ![1, 1, 1, 1] ![1, 1, 1, 1]) (fun i => (i : ℚ) + 2)
        (Dims4.mk ![1, 1, 1, 1] ![1, 1, 1, 1]) (fun i => (i : ℚ) + 3)
        (Dims4.mk ![2, 4, 1, 1] ![1, 2, 8, 8]) (fun i => (i : ℚ) + 4)
        (Dims4.mk ![4, 1, 1, 1] ![1, 4, 4, 4]) (fun i => (i : ℚ) + 5)
        (Dims4.mk ![1, 1, 1, 1] ![1, 1, 1, 1])
        (Dims4.mk ![1, 1, 1, 1] ![1, 1, 1, 1])
        (Dims4.mk ![1, 1, 1, 1] ![1, 1, 1, 1])
        (Dims4.mk ![4, 1, 1, 1] ![1, 4, 4, 4])).1 0 =
      (fun q => q) (lstmGatePreactivation (fun i => (i : ℚ))
          (Dims4.mk ![1, 1, 1, 1] ![1, 1, 1, 1]) (fun i => (i : ℚ) + 2)
          (Dims4.mk ![1, 1, 1, 1] ![1, 1, 1, 1]) (fun i => (i : ℚ) + 3)
          (Dims4.mk ![2, 4, 1, 1] ![1, 2, 8, 8]) (fun i => (i : ℚ) + 4)
          (Dims4.mk ![4, 1, 1, 1] ![1, 4, 4, 4])
          (Dims4.mk ![4, 1, 1, 1] ![1, 4, 4, 4])
          ((Dims4.mk ![1, 1, 1, 1] ![1, 1, 1, 1]).sizes 0) 0 0) *
        (fun q => q + 1) (lstmGatePreactivation (fun i => (i : ℚ))
          (Dims4.mk ![1, 1, 1, 1] ![1, 1, 1, 1]) (fun i => (i : ℚ) + 2)
          (Dims4.mk ![1, 1, 1, 1] ![1, 1, 1, 1]) (fun i => (i : ℚ) + 3)
          (Dims4.mk ![2, 4, 1, 1] ![1, 2, 8, 8]) (fun i => (i : ℚ) + 4)
          (Dims4.mk ![4, 1, 1, 1] ![1, 4, 4, 4])
          (Dims4.mk ![4, 1, 1, 1] ![1, 4, 4, 4])
          ((Dims4.mk ![1, 1, 1, 1] ![1, 1, 1, 1]).sizes 0) 1 0) +
      (fun q => q) (lstmGatePreactivation (fun i => (i : ℚ))
          (Dims4.mk ![1, 1, 1, 1] ![1, 1, 1, 1]) (fun i => (i : ℚ) + 2)
          (Dims4.mk ![1, 1, 1, 1] ![1, 1, 1, 1]) (fun i => (i : ℚ) + 3)
          (Dims4.mk ![2, 4, 1, 1] ![1, 2, 8, 8]) (fun i => (i : ℚ) + 4)
          (Dims4.mk ![4, 1, 1, 1] ![1, 4, 4, 4])
          (Dims4.mk ![4, 1, 1, 1] ![1, 4, 4, 4])
          ((Dims4.mk ![1, 1, 1, 1] ![1, 1, 1, 1]).sizes 0) 2 0) *
        ((fun i => (i : ℚ) + 5) 0) :=
  ⟨⟨by decide, by decide⟩,
    (claim_C7_lstm_cell (fun q => q) (fun q => q + 1) (fun i => (i : ℚ))
      (Dims4.mk ![1, 1, 1, 1] ![1, 1, 1, 1]) (fun i => (i : ℚ) + 2)
      (Dims4.mk ![1, 1, 1, 1] ![1, 1, 1, 1]) (fun i => (i : ℚ) + 3)
      (Dims4.mk ![2, 4, 1, 1] ![1, 2, 8, 8]) (fun i => (i : ℚ) + 4)
      (Dims4.mk ![4, 1, 1, 1] ![1, 4, 4, 4]) (fun i => (i : ℚ) + 5)
      (Dims4.mk ![1, 1, 1, 1] ![1, 1, 1, 1])
      (Dims4.mk ![1, 1, 1, 1] ![1, 1, 1, 1])
      (Dims4.mk ![1, 1, 1, 1] ![1, 1, 1, 1])
      (Dims4.mk ![4, 1, 1, 1] ![1, 4, 4, 4]) (by decide) (by decide)
      (by decide) (by decide) 0).1⟩

end OptimizedOps
